import Mathlib

/-!
Verification development for the `ocd` file-operation subsystem
(`src/ocd/tools/file_operations.py`, `src/ocd/core/types.py`, `src/ocd/cli.py`).

The filesystem is modelled as an association list from absolute paths
(component lists) to nodes (files carrying their content and a writability
bit, or directories carrying a writability bit).  All functions below are
direct translations of the corresponding Python methods; Python exceptions
become an explicit `Except` error channel, and each manager method threads
the mutable world (filesystem + operation history + clock) explicitly.
-/

namespace OCD

/-- A filesystem node: a regular file with its content and write-permission
bit, or a directory with its write-permission bit (`st_mode & 0o200`). -/
inductive FSNode where
  | file (content : String) (writable : Bool)
  | dir (writable : Bool)
deriving DecidableEq, Repr

/-- A filesystem: an association list from absolute paths (lists of
components, root = `[]`) to nodes.  Lookup returns the first match. -/
abbrev FS := List (List String × FSNode)

/-- First-match association lookup (the model of `stat` on a path). -/
def lookupFS (fs : FS) (p : List String) : Option FSNode :=
  match fs with
  | [] => none
  | e :: rest => if e.1 = p then some e.2 else lookupFS rest p

/-- `path.exists()`. -/
def existsFS (fs : FS) (p : List String) : Bool :=
  (lookupFS fs p).isSome

/-- `path.is_dir()`. -/
def isDirFS (fs : FS) (p : List String) : Bool :=
  match lookupFS fs p with
  | some (.dir _) => true
  | _ => false

/-- `path.is_file()`. -/
def isFileFS (fs : FS) (p : List String) : Bool :=
  match lookupFS fs p with
  | some (.file _ _) => true
  | _ => false

/-- Whether the node grants write permission (`st_mode & 0o200`). -/
def FSNode.writableBit : FSNode → Bool
  | .file _ w => w
  | .dir w => w

/-- `str(path)` for an absolute path: components joined by slashes. -/
def pathStr (p : List String) : String :=
  if p = [] then "/" else "/" ++ String.intercalate ("/") p

/-- The final component of a path (`path.name`); empty for the root. -/
def lastName (p : List String) : String :=
  (p.getLast?).getD ""

/-- Index of the last occurrence of a character in a list, if any. -/
def lastIdxOf (c : Char) : List Char → Option Nat
  | [] => none
  | x :: xs =>
    match lastIdxOf c xs with
    | some i => some (i + 1)
    | none => if x = c then some 0 else none

/-- `PurePath.stem` of a file name: the name up to the last dot, provided
that dot is neither the first nor the last character; otherwise the whole
name. -/
def pyStem (nm : String) : String :=
  let cs := nm.data
  match lastIdxOf (Char.ofNat 46) cs with
  | some i => if 0 < i ∧ i < cs.length - 1 then String.mk (cs.take i) else nm
  | none => nm

/-- `PurePath.suffix` of a file name: from the last dot (inclusive) to the
end, provided that dot is neither the first nor the last character;
otherwise empty. -/
def pySuffix (nm : String) : String :=
  let cs := nm.data
  match lastIdxOf (Char.ofNat 46) cs with
  | some i => if 0 < i ∧ i < cs.length - 1 then String.mk (cs.drop i) else ""
  | none => ""

/-- Split a character list on slashes (the component parse of pathlib). -/
def splitSlashAux : List Char → List Char → List String
  | [], acc => [String.mk acc.reverse]
  | c :: rest, acc =>
    if c = Char.ofNat 47 then
      String.mk acc.reverse :: splitSlashAux rest []
    else splitSlashAux rest (c :: acc)

/-- Split a string on slash characters. -/
def splitSlash (s : String) : List String :=
  splitSlashAux s.data []

/-- `PurePath(s).name`: the final component after splitting on slashes,
with empty and single-dot components dropped during parsing; empty when no
component remains (e.g. for an empty string, a bare dot, or the root). -/
def pyName (s : String) : String :=
  (((splitSlash s).filter (fun c => c ≠ "" ∧ c ≠ ".")).getLast?).getD ""

/-- `str.startswith` on rendered paths, evaluated on the character
lists. -/
def strStartsWith (s pre : String) : Bool :=
  pre.data.isPrefixOf s.data

/-- `parent / nm` for a bare (slash-free) name `nm`: pathlib drops empty
components, so joining with the empty string returns the parent unchanged. -/
def joinName (p : List String) (nm : String) : List String :=
  if nm = "" then p else p ++ [nm]

/-- `SafetyLevel` from `src/ocd/core/types.py`: exactly the four members
defined there.  There is no `MAXIMUM` and no `MINIMAL` member. -/
inductive SafetyLevel where
  | PERMISSIVE
  | BALANCED
  | STRICT
  | PARANOID
deriving DecidableEq, Repr

/-- Python-level errors surfaced by the embedded code. -/
inductive PyErr where
  | attributeError (nm : String)
  | ocdValidation (msg : String)
  | ocd (msg : String)
  | osError (msg : String)
  | shutilError (msg : String)
deriving DecidableEq, Repr

/-- The message carried by an error (the model of `str(e)`). -/
def errMsg : PyErr → String
  | .attributeError nm => nm
  | .ocdValidation m => m
  | .ocd m => m
  | .osError m => m
  | .shutilError m => m

/-- Enum member lookup by name on `SafetyLevel`. -/
def safetyLevelMember (nm : String) : Option SafetyLevel :=
  if nm = "PERMISSIVE" then some .PERMISSIVE
  else if nm = "BALANCED" then some .BALANCED
  else if nm = "STRICT" then some .STRICT
  else if nm = "PARANOID" then some .PARANOID
  else none

/-- Python attribute access `SafetyLevel.<nm>`: raises `AttributeError`
when the enum has no such member. -/
def safetyLevelAttr (nm : String) : Except PyErr SafetyLevel :=
  match safetyLevelMember nm with
  | some v => .ok v
  | none => .error (.attributeError nm)

/-- The safety-settings dictionary built by
`FileOperationManager._configure_safety_settings`. -/
structure SafetySettings where
  require_backup : Bool
  validate_permissions : Bool
  check_system_files : Bool
  prevent_overwrite : Bool
  max_file_size : Nat
  allowed_extensions : Option (List String)
  forbidden_paths : List String
deriving DecidableEq, Repr

/-- `FileOperationManager._configure_safety_settings`, run unconditionally
by the constructor.  Its first branch compares `self.safety_level` against
`SafetyLevel.MAXIMUM`; evaluating that attribute raises `AttributeError`
because the enum defines no such member, so the settings below are never
produced. -/
def configureSafetySettings (lvl : SafetyLevel) : Except PyErr SafetySettings := do
  let mx ← safetyLevelAttr ("MAXIMUM")
  if lvl = mx then
    .ok { require_backup := true, validate_permissions := true,
          check_system_files := true, prevent_overwrite := true,
          max_file_size := 100 * 1024 * 1024,
          allowed_extensions := none,
          forbidden_paths := ["/System", "/usr", "/bin", "/sbin", "/etc",
            "C:\\Windows", "C:\\Program Files", "C:\\Program Files (x86)"] }
  else if lvl = SafetyLevel.BALANCED then
    .ok { require_backup := true, validate_permissions := true,
          check_system_files := true, prevent_overwrite := false,
          max_file_size := 1024 * 1024 * 1024,
          allowed_extensions := none,
          forbidden_paths := ["/System", "/usr/bin", "/usr/sbin", "/etc",
            "C:\\Windows\\System32", "C:\\Windows\\SysWOW64"] }
  else
    .ok { require_backup := false, validate_permissions := true,
          check_system_files := false, prevent_overwrite := false,
          max_file_size := 10 * 1024 * 1024 * 1024,
          allowed_extensions := none,
          forbidden_paths := [] }

/-- The immutable configuration of a `FileOperationManager` instance. -/
structure Manager where
  safety_level : SafetyLevel
  backup_enabled : Bool
  max_batch_size : Nat
  safety_settings : SafetySettings
deriving DecidableEq, Repr

/-- `FileOperationManager.__init__`: stores the arguments and then calls
`_configure_safety_settings`, whose `AttributeError` propagates out of the
constructor uncaught. -/
def mkFileOperationManager (lvl : SafetyLevel) (backupEnabled : Bool)
    (maxBatchSize : Nat) : Except PyErr Manager := do
  let settings ← configureSafetySettings lvl
  .ok { safety_level := lvl, backup_enabled := backupEnabled,
        max_batch_size := maxBatchSize, safety_settings := settings }

/-- The `safety_map` dictionary built by the CLI (`src/ocd/cli.py`): its
entries evaluate `SafetyLevel.MINIMAL`, `SafetyLevel.BALANCED` and
`SafetyLevel.MAXIMUM` in order, raising on the first missing member. -/
def cliSafetyMap : Except PyErr (List (String × SafetyLevel)) := do
  let mn ← safetyLevelAttr ("MINIMAL")
  let bl ← safetyLevelAttr ("BALANCED")
  let mx ← safetyLevelAttr ("MAXIMUM")
  .ok [("minimal", mn), ("balanced", bl), ("maximum", mx)]

/-- `FileOperationManager._is_path_safe`: forbidden-prefix check on the
resolved path string, then (when `validate_permissions`) a write-permission
check on an existing path.  No size check occurs anywhere in the body. -/
def isPathSafe (cfg : Manager) (fs : FS) (p : List String) : Bool :=
  if cfg.safety_settings.forbidden_paths.any
      (fun f => strStartsWith (pathStr p) f) then
    false
  else if cfg.safety_settings.validate_permissions then
    match lookupFS fs p with
    | some n =>
      if isFileFS fs p && n.writableBit then true
      else if isDirFS fs p && n.writableBit then true
      else false
    | none => true
  else true

/-- The `rollback_info` dictionary of a `FileOperation` record, with one
optional field per key that the source ever stores. -/
structure RollbackInfo where
  backup_path : Option (List String) := none
  original_existed : Option Bool := none
  was_directory : Option Bool := none
  created : Option Bool := none
  created_copy : Option Bool := none
deriving DecidableEq, Repr

/-- The `FileOperation` dataclass: one intended mutation together with the
information recorded for rollback. -/
structure FileOperation where
  operation_type : String
  source_path : Option (List String) := none
  destination_path : Option (List String) := none
  old_name : Option String := none
  new_name : Option String := none
  executed : Bool := false
  rollback_info : RollbackInfo := {}
deriving DecidableEq, Repr

/-- The `OperationResult` dataclass. -/
structure OperationResult where
  success : Bool
  operation : FileOperation
  message : String
  source : Option (List String) := none
  destination : Option (List String) := none
  old_name : Option String := none
  new_name : Option String := none
  conflicts_resolved : List String := []
  warnings : List String := []
deriving DecidableEq, Repr

/-- The mutable world threaded through the manager methods: the filesystem,
the in-memory `operation_history`, and the session clock used for backup
names and the conflict-resolution timestamp fallback. -/
structure MState where
  fs : FS
  history : List FileOperation := []
  time : Nat := 0
deriving DecidableEq, Repr

/-- Remove the single entry at a key (`path.unlink` / file overwrite). -/
def removeKey (fs : FS) (k : List String) : FS :=
  fs.filter (fun e => e.1 ≠ k)

/-- Remove a path and everything below it (`shutil.rmtree`). -/
def removeTree (fs : FS) (k : List String) : FS :=
  fs.filter (fun e => ¬ k.isPrefixOf e.1)

/-- Replace the node stored at an existing key in place. -/
def replaceEntry (fs : FS) (k : List String) (n : FSNode) : FS :=
  fs.map (fun e => if e.1 = k then (k, n) else e)

/-- Rewrite every entry whose key lies at or below `src` so that it lies at
the corresponding position below `dst` (the key-level effect of a rename). -/
def moveEntries (fs : FS) (src dst : List String) : FS :=
  fs.map (fun e =>
    if src.isPrefixOf e.1 then (dst ++ e.1.drop src.length, e.2) else e)

/-- The entries at or below a path, the subtree a recursive copy reads. -/
def entriesUnder (fs : FS) (p : List String) : FS :=
  fs.filter (fun e => p.isPrefixOf e.1)

/-- The chain of nonempty ancestors of a path, shortest first, ending with
the path itself. -/
def ancestorChain (p : List String) : List (List String) :=
  (List.range p.length).map (fun i => p.take (i + 1))

/-- Create every directory in the given chain that is missing, in order:
an existing directory is kept, an existing file aborts with the error
`mkdir(parents=True)` raises, a missing path gains a fresh directory. -/
def mkdirChain (fs : FS) (dirs : List (List String)) : FS × Except PyErr Unit :=
  match dirs with
  | [] => (fs, .ok ())
  | d :: rest =>
    match lookupFS fs d with
    | some (.dir _) => mkdirChain fs rest
    | some (.file _ _) =>
      (fs, .error (.osError ("FileExistsError: " ++ pathStr d)))
    | none => mkdirChain (fs ++ [(d, .dir true)]) rest

/-- `path.mkdir(parents=True, exist_ok=True)`. -/
def mkdirParents (fs : FS) (p : List String) : FS × Except PyErr Unit :=
  mkdirChain fs (ancestorChain p)

/-- `os.rename`: refuses to move a tree strictly into itself, refuses to
move a directory over a file, overwrites a file destination, and otherwise
rewrites the subtree keys.  Destinations that are existing directories are
never passed here by the `shutil.move` model below. -/
def osRename (fs : FS) (src dst : List String) : FS × Except PyErr Unit :=
  if src ≠ dst ∧ src.isPrefixOf dst then
    (fs, .error (.osError ("EINVAL: " ++ pathStr dst)))
  else
    match lookupFS fs dst with
    | some (.dir _) => (fs, .error (.osError ("EISDIR: " ++ pathStr dst)))
    | some (.file _ _) =>
      if isDirFS fs src then
        (fs, .error (.osError ("ENOTDIR: " ++ pathStr dst)))
      else (moveEntries (removeKey fs dst) src dst, .ok ())
    | none => (moveEntries fs src dst, .ok ())

/-- `shutil.move`: a destination that is an existing directory receives the
source as a child named after it (failing when that child already exists,
and treating a move onto the very same path as a no-op); any other
destination goes through `os.rename`. -/
def shutilMove (fs : FS) (src dst : List String) : FS × Except PyErr Unit :=
  if ¬ existsFS fs src then
    (fs, .error (.osError ("FileNotFoundError: " ++ pathStr src)))
  else if isDirFS fs dst then
    if src = dst then (fs, .ok ())
    else if existsFS fs (dst ++ [lastName src]) then
      (fs, .error (.shutilError ("Destination path already exists: " ++
        pathStr (dst ++ [lastName src]))))
    else osRename fs src (dst ++ [lastName src])
  else
    if src = dst then (fs, .ok ())
    else osRename fs src dst

/-- The concrete path a `shutil.copy2` writes: inside an existing
directory destination the source's name is appended, otherwise the
destination itself. -/
def copy2Target (fs : FS) (src dst : List String) : List String :=
  if isDirFS fs dst then dst ++ [lastName src] else dst

/-- `shutil.copy2` (and `shutil.copy`; metadata is not modelled): a file
copy that lands inside an existing directory destination under the source
name, overwrites an existing file, and fails on a directory source or on a
directory occupying the target. -/
def copy2FS (fs : FS) (src dst : List String) : FS × Except PyErr Unit :=
  match lookupFS fs src with
  | some (.file c w) =>
    match lookupFS fs (copy2Target fs src dst) with
    | some (.dir _) =>
      (fs, .error (.osError ("IsADirectoryError: " ++
        pathStr (copy2Target fs src dst))))
    | some (.file _ _) =>
      (replaceEntry fs (copy2Target fs src dst) (.file c w), .ok ())
    | none => (fs ++ [(copy2Target fs src dst, .file c w)], .ok ())
  | some (.dir _) =>
    (fs, .error (.osError ("IsADirectoryError: " ++ pathStr src)))
  | none => (fs, .error (.osError ("FileNotFoundError: " ++ pathStr src)))

/-- `shutil.copytree`: fails when the destination exists, otherwise copies
the whole subtree (snapshot semantics). -/
def copyTreeFS (fs : FS) (src dst : List String) : FS × Except PyErr Unit :=
  if existsFS fs dst then
    (fs, .error (.osError ("FileExistsError: " ++ pathStr dst)))
  else (fs ++ moveEntries (entriesUnder fs src) src dst, .ok ())

/-- The generated conflict name for probe index `counter`. -/
def conflictName (base ext : String) (counter : Nat) : String :=
  base ++ " (" ++ toString counter ++ ")" ++ ext

/-- The timestamp fallback name used after 1000 failed probes. -/
def timestampName (base ext : String) (time : Nat) : String :=
  base ++ "_" ++ toString time ++ ext

/-- The probe loop of `_resolve_naming_conflict`: try `counter`, and on an
occupied name step to `counter + 1`, falling back to the timestamp name
once the counter passes 1000.  The loop's bound `counter > 1000` is
carried structurally as the remaining probe budget
`fuel = 1000 - counter`, so the loop tries exactly the counters
`1, ..., 1000` before falling back — the same iterations the source
performs. -/
def resolveGo (fs : FS) (par : List String) (base ext : String) (time : Nat)
    (counter : Nat) : Nat → List String
  | 0 =>
    if ¬ existsFS fs (par ++ [conflictName base ext counter]) then
      par ++ [conflictName base ext counter]
    else par ++ [timestampName base ext time]
  | fuel + 1 =>
    if ¬ existsFS fs (par ++ [conflictName base ext counter]) then
      par ++ [conflictName base ext counter]
    else resolveGo fs par base ext time (counter + 1) fuel

/-- `FileOperationManager._resolve_naming_conflict`. -/
def resolveNamingConflict (fs : FS) (p : List String) (time : Nat) :
    List String :=
  resolveGo fs p.dropLast (pyStem (lastName p)) (pySuffix (lastName p))
    time 1 999

/-- The conflict-resolution step of `move_file`: the requested destination
is resolved exactly when it exists and `resolve_conflicts` is set,
otherwise it is returned unchanged. -/
def moveFinalDestination (fs : FS) (destination : List String)
    (resolveConflicts : Bool) (time : Nat) : List String :=
  if existsFS fs destination && resolveConflicts then
    resolveNamingConflict fs destination time
  else destination

/-- A non-recursive `path.mkdir(exist_ok=True)`: an existing directory is
kept, an existing file raises, a missing parent raises, and otherwise a
fresh directory entry is appended. -/
def mkdirSingleExistOk (fs : FS) (d : List String) : FS × Except PyErr Unit :=
  match lookupFS fs d with
  | some (.dir _) => (fs, .ok ())
  | some (.file _ _) =>
    (fs, .error (.osError ("FileExistsError: " ++ pathStr d)))
  | none =>
    if d.dropLast ≠ [] ∧ ¬ isDirFS fs d.dropLast then
      (fs, .error (.osError ("FileNotFoundError: " ++ pathStr d)))
    else (fs ++ [(d, .dir true)], .ok ())

/-- The session backup directory colocated with the target:
`<parent>/.ocd_backups`. -/
def backupDirOf (p : List String) : List String :=
  p.dropLast ++ [".ocd_backups"]

/-- The backup destination `<parent>/.ocd_backups/<name>_<timestamp>`. -/
def backupPathOf (p : List String) (time : Nat) : List String :=
  backupDirOf p ++ [lastName p ++ "_" ++ toString time]

/-- `FileOperationManager._create_backup`: ensure the sibling
`.ocd_backups` directory exists (non-recursive `mkdir(exist_ok=True)`),
then deep-copy a directory or metadata-copy a file to
`<name>_<timestamp>` inside it, returning that backup path. -/
def createBackup (fs : FS) (p : List String) (time : Nat) :
    FS × Except PyErr (List String) :=
  match mkdirSingleExistOk fs (backupDirOf p) with
  | (fs1, .error e) => (fs1, .error e)
  | (fs1, .ok _) =>
    if isDirFS fs1 p then
      match copyTreeFS fs1 p (backupPathOf p time) with
      | (fs2, .error e) => (fs2, .error e)
      | (fs2, .ok _) => (fs2, .ok (backupPathOf p time))
    else
      match copy2FS fs1 p (backupPathOf p time) with
      | (fs2, .error e) => (fs2, .error e)
      | (fs2, .ok _) => (fs2, .ok (backupPathOf p time))

/-- The blanket `except Exception as e: raise OCDError(f"... failed: {e}")`
at the end of each manager method. -/
def wrapErr (pre : String) (e : PyErr) : PyErr :=
  .ocd (pre ++ errMsg e)

/-- `_validate_delete_operation`: compares the active level against
`SafetyLevel.MAXIMUM`, whose attribute lookup raises. -/
def validateDeleteE (cfg : Manager) (fs : FS) (op : FileOperation) :
    Except PyErr Bool := do
  let mx ← safetyLevelAttr ("MAXIMUM")
  if cfg.safety_level = mx then .ok false
  else
    match op.source_path with
    | some sp => .ok (isPathSafe cfg fs sp)
    | none => .error (.attributeError ("NoneType"))

/-- `_validate_move_copy_operation`. -/
def validateMoveCopyE (cfg : Manager) (fs : FS) (op : FileOperation) :
    Except PyErr Bool :=
  match op.source_path, op.destination_path with
  | some sp, some dp => .ok (isPathSafe cfg fs sp && isPathSafe cfg fs dp)
  | _, _ => .error (.attributeError ("NoneType"))

/-- `_validate_rename_operation`. -/
def validateRenameE (cfg : Manager) (fs : FS) (op : FileOperation) :
    Except PyErr Bool :=
  match op.source_path with
  | some sp => .ok (isPathSafe cfg fs sp)
  | none => .error (.attributeError ("NoneType"))

/-- The body of `validate_operation` before its `except` clause: path
safety of the mentioned paths, then the operation-specific check. -/
def validateOperationE (cfg : Manager) (fs : FS) (op : FileOperation) :
    Except PyErr Bool :=
  if op.source_path.any (fun sp => ¬ isPathSafe cfg fs sp) then .ok false
  else if op.destination_path.any (fun dp => ¬ isPathSafe cfg fs dp) then .ok false
  else if op.operation_type = "delete" then validateDeleteE cfg fs op
  else if op.operation_type = "move" ∨ op.operation_type = "copy" then
    validateMoveCopyE cfg fs op
  else if op.operation_type = "rename" then validateRenameE cfg fs op
  else .ok true

/-- `validate_operation`: any exception in the body is logged and turned
into `False`. -/
def validateOperation (cfg : Manager) (fs : FS) (op : FileOperation) : Bool :=
  match validateOperationE cfg fs op with
  | .ok b => b
  | .error _ => false

/-- The `FileOperation` record built at the top of `move_file`. -/
def moveOp (source destination : List String) : FileOperation :=
  { operation_type := "move", source_path := some source,
    destination_path := some destination }

/-- The `conflicts_resolved` list reported by `move_file`. -/
def moveConflictsResolved (fs : FS) (destination : List String)
    (resolveConflicts : Bool) (time : Nat) : List String :=
  if existsFS fs destination && resolveConflicts then
    ["Renamed to " ++
      lastName (moveFinalDestination fs destination resolveConflicts time) ++
      " to avoid conflict"]
  else []

/-- The backup step of `move_file`: a backup is created only when backups
are enabled and something occupies the final destination. -/
def moveBackupStep (cfg : Manager) (fs : FS) (final : List String)
    (time : Nat) : FS × Except PyErr (Option (List String)) :=
  if cfg.backup_enabled && existsFS fs final then
    match createBackup fs final time with
    | (fs2, .error e) => (fs2, .error e)
    | (fs2, .ok bp) => (fs2, .ok (some bp))
  else (fs, .ok none)

/-- The executed history record of a successful `move_file` call; note
that `original_existed` evaluates `destination.exists()` only AFTER the
move, on the requested (unresolved) destination. -/
def moveRecord (source destination final : List String)
    (backupPath : Option (List String)) (fs3 : FS) : FileOperation :=
  { moveOp source destination with
    destination_path := some final,
    executed := true,
    rollback_info :=
      { backup_path := backupPath,
        original_existed := some (existsFS fs3 destination) } }

/-- `FileOperationManager.move_file`.  The world is threaded explicitly;
errors raised part-way keep the mutations already performed (created parent
directories, backups). -/
def moveFile (cfg : Manager) (st : MState) (source destination : List String)
    (resolveConflicts : Bool) : MState × Except PyErr OperationResult :=
  if ¬ validateOperation cfg st.fs (moveOp source destination) then
    (st, .error (wrapErr ("File move failed: ")
      (.ocdValidation ("Move operation not allowed: " ++ pathStr source ++
        " -> " ++ pathStr destination))))
  else if ¬ existsFS st.fs source then
    (st, .error (wrapErr ("File move failed: ")
      (.ocd ("Source file does not exist: " ++ pathStr source))))
  else
    match mkdirParents st.fs
        (moveFinalDestination st.fs destination resolveConflicts st.time).dropLast with
    | (fs1, .error e) =>
      ({ st with fs := fs1 }, .error (wrapErr ("File move failed: ") e))
    | (fs1, .ok _) =>
      match moveBackupStep cfg fs1
          (moveFinalDestination st.fs destination resolveConflicts st.time)
          st.time with
      | (fs2, .error e) =>
        ({ st with fs := fs2 }, .error (wrapErr ("File move failed: ") e))
      | (fs2, .ok backupPath) =>
        match shutilMove fs2 source
            (moveFinalDestination st.fs destination resolveConflicts st.time) with
        | (fs3, .error e) =>
          ({ st with fs := fs3 }, .error (wrapErr ("File move failed: ") e))
        | (fs3, .ok _) =>
          ({ fs := fs3,
             history := st.history ++
               [moveRecord source destination
                 (moveFinalDestination st.fs destination resolveConflicts st.time)
                 backupPath fs3],
             time := st.time },
           .ok { success := true,
                 operation := moveRecord source destination
                   (moveFinalDestination st.fs destination resolveConflicts st.time)
                   backupPath fs3,
                 message := "File moved: " ++ lastName source ++ " -> " ++
                   pathStr (moveFinalDestination st.fs destination
                     resolveConflicts st.time),
                 source := some source,
                 destination := some (moveFinalDestination st.fs destination
                   resolveConflicts st.time),
                 conflicts_resolved :=
                   moveConflictsResolved st.fs destination resolveConflicts
                     st.time })

/-- The sanitized rename destination: the source's parent joined with the
final path component of the requested name. -/
def renamePath (current : List String) (newNameRaw : String) : List String :=
  joinName current.dropLast (pyName newNameRaw)

/-- The `FileOperation` record built by `rename_file`. -/
def renameOp (current : List String) (newNameRaw : String) : FileOperation :=
  { operation_type := "rename", source_path := some current,
    destination_path := some (renamePath current newNameRaw),
    old_name := some (lastName current),
    new_name := some (pyName newNameRaw) }

/-- `FileOperationManager.rename_file`: sanitize `new_name` to its final
path component, target the source's parent joined with it, and delegate to
`move_file` (conflict resolution enabled). -/
def renameFile (cfg : Manager) (st : MState) (current : List String)
    (newNameRaw : String) : MState × Except PyErr OperationResult :=
  match moveFile cfg st current (renamePath current newNameRaw) true with
  | (st1, .error e) =>
    (st1, .error (wrapErr ("File rename failed: ") e))
  | (st1, .ok res) =>
    (st1, .ok { res with
      operation := { renameOp current newNameRaw with executed := true },
      old_name := some (lastName current),
      new_name := some (lastName (renamePath current newNameRaw)),
      message := "File renamed: " ++ lastName current ++ " -> " ++
        lastName (renamePath current newNameRaw) })

/-- The `FileOperation` record built at the top of `copy_file`. -/
def copyOp (source destination : List String) : FileOperation :=
  { operation_type := "copy", source_path := some source,
    destination_path := some destination }

/-- The conflict-resolution step of `copy_file` (performed after the
destination parent has been created, and unconditionally). -/
def copyFinalDestination (fs : FS) (destination : List String) (time : Nat) :
    List String :=
  if existsFS fs destination then resolveNamingConflict fs destination time
  else destination

/-- The executed history record of a successful `copy_file` call. -/
def copyRecord (source destination final : List String) : FileOperation :=
  { copyOp source destination with
    destination_path := some final,
    executed := true,
    rollback_info := { created_copy := some true } }

/-- `FileOperationManager.copy_file` (the `copy`/`copy2` distinction only
affects metadata, which the model does not carry). -/
def copyFile (cfg : Manager) (st : MState) (source destination : List String)
    (preserveMetadata : Bool) : MState × Except PyErr OperationResult :=
  if ¬ validateOperation cfg st.fs (copyOp source destination) then
    (st, .error (wrapErr ("File copy failed: ")
      (.ocdValidation ("Copy operation not allowed: " ++ pathStr source ++
        " -> " ++ pathStr destination))))
  else if ¬ existsFS st.fs source then
    (st, .error (wrapErr ("File copy failed: ")
      (.ocd ("Source file does not exist: " ++ pathStr source))))
  else
    match mkdirParents st.fs destination.dropLast with
    | (fs1, .error e) =>
      ({ st with fs := fs1 }, .error (wrapErr ("File copy failed: ") e))
    | (fs1, .ok _) =>
      match (if preserveMetadata then
          copy2FS fs1 source (copyFinalDestination fs1 destination st.time)
        else
          copy2FS fs1 source (copyFinalDestination fs1 destination st.time)) with
      | (fs2, .error e) =>
        ({ st with fs := fs2 }, .error (wrapErr ("File copy failed: ") e))
      | (fs2, .ok _) =>
        ({ fs := fs2,
           history := st.history ++
             [copyRecord source destination
               (copyFinalDestination fs1 destination st.time)],
           time := st.time },
         .ok { success := true,
               operation := copyRecord source destination
                 (copyFinalDestination fs1 destination st.time),
               message := "File copied: " ++ lastName source ++ " -> " ++
                 pathStr (copyFinalDestination fs1 destination st.time),
               source := some source,
               destination :=
                 some (copyFinalDestination fs1 destination st.time) })

/-- The `FileOperation` record built at the top of `delete_file`. -/
def deleteOp (p : List String) : FileOperation :=
  { operation_type := "delete", source_path := some p }

/-- The backup step of `delete_file`. -/
def deleteBackupStep (cfg : Manager) (fs : FS) (p : List String)
    (time : Nat) : FS × Except PyErr (Option (List String)) :=
  if cfg.backup_enabled then
    match createBackup fs p time with
    | (fs1, .error e) => (fs1, .error e)
    | (fs1, .ok bp) => (fs1, .ok (some bp))
  else (fs, .ok none)

/-- The deletion itself: `rmtree` on a directory, `unlink` otherwise. -/
def deleteResultFS (fs : FS) (p : List String) : FS :=
  if isDirFS fs p then removeTree fs p else removeKey fs p

/-- The executed history record of a successful `delete_file` call; note
that `was_directory` evaluates `path.is_dir()` only AFTER the deletion. -/
def deleteRecord (p : List String) (backupPath : Option (List String))
    (fs2 : FS) : FileOperation :=
  { deleteOp p with
    executed := true,
    rollback_info :=
      { backup_path := backupPath,
        was_directory := some (isDirFS fs2 p) } }

/-- The part of `delete_file` that runs after validation has passed. -/
def deleteFileChecked (cfg : Manager) (st : MState) (p : List String) :
    MState × Except PyErr OperationResult :=
  if ¬ existsFS st.fs p then
    (st, .ok { success := true, operation := deleteOp p,
               message := "File does not exist: " ++ pathStr p,
               source := some p })
  else
    match deleteBackupStep cfg st.fs p st.time with
    | (fs1, .error e) =>
      ({ st with fs := fs1 }, .error (wrapErr ("File deletion failed: ") e))
    | (fs1, .ok backupPath) =>
      ({ fs := deleteResultFS fs1 p,
         history := st.history ++
           [deleteRecord p backupPath (deleteResultFS fs1 p)],
         time := st.time },
       .ok { success := true,
             operation := deleteRecord p backupPath (deleteResultFS fs1 p),
             message := "File deleted: " ++ pathStr p, source := some p })

/-- `FileOperationManager.delete_file`.  The `force` flag is stored only in
the record metadata and never consulted by any check. -/
def deleteFile (cfg : Manager) (st : MState) (p : List String)
    (force : Bool) : MState × Except PyErr OperationResult :=
  if ¬ validateOperation cfg st.fs (deleteOp p) then
    (st, .error (wrapErr ("File deletion failed: ")
      (.ocdValidation ("Delete operation not allowed: " ++ pathStr p))))
  else deleteFileChecked cfg st p

/-- The `FileOperation` record built at the top of `create_directory`. -/
def createDirOp (p : List String) : FileOperation :=
  { operation_type := "create_dir", destination_path := some p }

/-- The filesystem call of `create_directory`: recursive creation when
`parents` is set, otherwise a single `mkdir` requiring the parent. -/
def createDirStep (fs : FS) (p : List String) (parents : Bool) :
    FS × Except PyErr Unit :=
  if parents then mkdirParents fs p
  else if p.dropLast ≠ [] ∧ ¬ isDirFS fs p.dropLast then
    (fs, .error (.osError ("FileNotFoundError: " ++ pathStr p)))
  else (fs ++ [(p, .dir true)], .ok ())

/-- The executed history record of a successful `create_directory` call. -/
def createDirRecord (p : List String) : FileOperation :=
  { createDirOp p with
    executed := true, rollback_info := { created := some true } }

/-- `FileOperationManager.create_directory`. -/
def createDirectory (cfg : Manager) (st : MState) (p : List String)
    (parents existOk : Bool) : MState × Except PyErr OperationResult :=
  if ¬ validateOperation cfg st.fs (createDirOp p) then
    (st, .error (wrapErr ("Directory creation failed: ")
      (.ocdValidation ("Directory creation not allowed: " ++ pathStr p))))
  else if existsFS st.fs p then
    if existOk && isDirFS st.fs p then
      (st, .ok { success := true, operation := createDirOp p,
                 message := "Directory already exists: " ++ pathStr p,
                 destination := some p })
    else
      (st, .error (wrapErr ("Directory creation failed: ")
        (.ocd ("Path already exists: " ++ pathStr p))))
  else
    match createDirStep st.fs p parents with
    | (fs1, .error e) =>
      ({ st with fs := fs1 }, .error (wrapErr ("Directory creation failed: ") e))
    | (fs1, .ok _) =>
      ({ fs := fs1, history := st.history ++ [createDirRecord p],
         time := st.time },
       .ok { success := true, operation := createDirRecord p,
             message := "Directory created: " ++ pathStr p,
             destination := some p })

/-- Whether a directory has any entry strictly below it. -/
def hasChildren (fs : FS) (d : List String) : Bool :=
  fs.any (fun e => d.isPrefixOf e.1 && e.1 ≠ d)

/-- The per-type inverse action inside `_rollback_single_operation`:
a missing destination (move/copy), a missing backup (delete) and a
non-empty or non-directory `rmdir` target (create_dir, whose `OSError` is
swallowed) all fall through silently. -/
def rollbackAction (cfg : Manager) (st : MState) (op : FileOperation) :
    MState × Except PyErr Unit :=
  if op.operation_type = "move" then
    match op.destination_path with
    | some d =>
      if existsFS st.fs d then
        match op.source_path with
        | some s =>
          match moveFile cfg st d s true with
          | (st1, .error e) => (st1, .error e)
          | (st1, .ok _) => (st1, .ok ())
        | none => (st, .error (.attributeError ("NoneType")))
      else (st, .ok ())
    | none => (st, .ok ())
  else if op.operation_type = "copy" then
    match op.destination_path with
    | some d =>
      if existsFS st.fs d then
        match deleteFile cfg st d true with
        | (st1, .error e) => (st1, .error e)
        | (st1, .ok _) => (st1, .ok ())
      else (st, .ok ())
    | none => (st, .ok ())
  else if op.operation_type = "create_dir" then
    match op.destination_path with
    | some d =>
      if existsFS st.fs d then
        if isDirFS st.fs d && !hasChildren st.fs d then
          ({ st with fs := removeKey st.fs d }, .ok ())
        else (st, .ok ())
      else (st, .ok ())
    | none => (st, .ok ())
  else if op.operation_type = "delete" then
    match op.rollback_info.backup_path with
    | some bp =>
      if existsFS st.fs bp then
        match op.source_path with
        | some s =>
          if op.rollback_info.was_directory = some true then
            match copyTreeFS st.fs bp s with
            | (fs1, .error e) => ({ st with fs := fs1 }, .error e)
            | (fs1, .ok _) => ({ st with fs := fs1 }, .ok ())
          else
            match copy2FS st.fs bp s with
            | (fs1, .error e) => ({ st with fs := fs1 }, .error e)
            | (fs1, .ok _) => ({ st with fs := fs1 }, .ok ())
        | none => (st, .error (.attributeError ("NoneType")))
      else (st, .ok ())
    | none => (st, .ok ())
  else (st, .ok ())

/-- `FileOperationManager._rollback_single_operation`. -/
def rollbackSingleOperation (cfg : Manager) (st : MState)
    (op : FileOperation) : MState × Except PyErr OperationResult :=
  if ¬ op.executed then
    (st, .ok { success := true, operation := op,
               message := "Operation was not executed, nothing to rollback" })
  else
    match rollbackAction cfg st op with
    | (st1, .error e) =>
      (st1, .error (wrapErr ("Rollback failed: ") e))
    | (st1, .ok _) =>
      (st1, .ok { success := true, operation := op,
                  message := "Operation rolled back successfully" })

/-- The loop body of `rollback_operations`: one result per record, an
exception from a record becoming a failure result without stopping. -/
def rollbackLoop (cfg : Manager) (st : MState) (l : List FileOperation) :
    MState × List OperationResult :=
  match l with
  | [] => (st, [])
  | op :: rest =>
    match rollbackSingleOperation cfg st op with
    | (st1, .ok r) =>
      ((rollbackLoop cfg st1 rest).1, r :: (rollbackLoop cfg st1 rest).2)
    | (st1, .error e) =>
      ((rollbackLoop cfg st1 rest).1,
       ({ success := false, operation := op,
          message := "Rollback failed: " ++ errMsg e } : OperationResult) ::
         (rollbackLoop cfg st1 rest).2)

/-- `FileOperationManager.rollback_operations`: the given records are
processed in reverse order. -/
def rollbackOperations (cfg : Manager) (st : MState)
    (ops : List FileOperation) : MState × List OperationResult :=
  rollbackLoop cfg st ops.reverse

/-! ### Infrastructure lemmas about the filesystem model -/

/-- A path that never enters a backup directory: the residue convention of
the specification exempts `.ocd_backups` subtrees from content
comparisons. -/
def noBk (p : List String) : Prop := (".ocd_backups" : String) ∉ p

instance (p : List String) : Decidable (noBk p) := by
  unfold noBk; infer_instance

/-- A filesystem is parent-closed when every strict ancestor of a stored
key is itself stored as a directory — real filesystem states always are. -/
def parentClosed (fs : FS) : Prop :=
  ∀ e ∈ fs, ∀ j ∈ List.range e.1.length, 0 < j → isDirFS fs (e.1.take j) = true

instance (fs : FS) : Decidable (parentClosed fs) := by
  unfold parentClosed; infer_instance

/-! ### Concrete fixtures used by counterexamples and witnesses -/

/-- The settings dictionary of the `BALANCED` branch of
`_configure_safety_settings` (the constructor can never produce it, so the
fixtures below build it directly). -/
def balancedSettings : SafetySettings :=
  { require_backup := true, validate_permissions := true,
    check_system_files := true, prevent_overwrite := false,
    max_file_size := 1024 * 1024 * 1024,
    allowed_extensions := none,
    forbidden_paths := ["/System", "/usr/bin", "/usr/sbin", "/etc",
      "C:\\Windows\\System32", "C:\\Windows\\SysWOW64"] }

/-- A manager instance with the balanced settings and backups enabled. -/
def testManager : Manager :=
  { safety_level := .BALANCED, backup_enabled := true,
    max_batch_size := 1000, safety_settings := balancedSettings }

/-- A home directory holding `d.txt`, `d (1).txt` and `d (2).txt`. -/
def homeFS : FS :=
  [ (["home"], .dir true), (["home", "user"], .dir true),
    (["home", "user", "d.txt"], .file ("v0") true),
    (["home", "user", "d (1).txt"], .file ("v1") true),
    (["home", "user", "d (2).txt"], .file ("v2") true) ]

/-- The world fixture over `homeFS`. -/
def homeState : MState := { fs := homeFS, history := [], time := 55 }

/-- A filesystem holding a directory with a file inside. -/
def dirFS : FS :=
  [ (["home"], .dir true), (["home", "user"], .dir true),
    (["home", "user", "docs"], .dir true),
    (["home", "user", "docs", "a.txt"], .file ("x") true) ]

/-- The world fixture over `dirFS`. -/
def dirState : MState := { fs := dirFS, history := [], time := 66 }

/-- A manager whose profile sets `max_file_size` to a single byte. -/
def tinyLimitManager : Manager :=
  { testManager with
    safety_settings := { balancedSettings with max_file_size := 1 } }

/-- A filesystem with a ten-byte file, exceeding the one-byte limit. -/
def bigFS : FS :=
  [ (["data"], .dir true),
    (["data", "big.bin"], .file ("0123456789") true) ]

/-- The copy used by the rollback counterexample of the round-trip claim. -/
def c2Copy : MState × Except PyErr OperationResult :=
  copyFile testManager homeState (["home", "user", "d.txt"])
    (["home", "user", "c.txt"]) true

/-- Rolling back the full recorded history of that copy. -/
def c2Rollback : MState × List OperationResult :=
  rollbackOperations testManager c2Copy.1 c2Copy.1.history

/-- A move of a file onto its own path with conflict resolution disabled. -/
def c1SelfMove : MState × Except PyErr OperationResult :=
  moveFile testManager homeState (["home", "user", "d.txt"])
    (["home", "user", "d.txt"]) false

/-- A rename whose new name sanitizes to the empty string. -/
def c6Rename : MState × Except PyErr OperationResult :=
  renameFile testManager homeState (["home", "user", "d.txt"]) (".")

/-- An executed move record whose destination no longer exists. -/
def c7MoveRec : FileOperation :=
  { operation_type := "move",
    source_path := some (["home", "user", "a.txt"]),
    destination_path := some (["home", "user", "gone.txt"]),
    executed := true }

/-- An executed delete record with no recorded backup. -/
def c8DelRec : FileOperation :=
  { operation_type := "delete",
    source_path := some (["home", "user", "x.txt"]),
    executed := true }

/-- A state whose original path is currently occupied by a directory while
a file backup for it is recorded. -/
def c8DirTargetState : MState :=
  { fs := [ (["home"], .dir true), (["home", "user"], .dir true),
            (["home", "user", "docs"], .dir true),
            (["home", "user", ".ocd_backups"], .dir true),
            (["home", "user", ".ocd_backups", "z.txt_55"],
              .file ("zzz") true) ],
    history := [], time := 55 }

/-- An executed delete record whose file backup exists while the original
path is occupied by a directory. -/
def c8DirTargetRec : FileOperation :=
  { operation_type := "delete",
    source_path := some (["home", "user", "docs"]),
    executed := true,
    rollback_info :=
      { backup_path :=
          some (["home", "user", ".ocd_backups", "z.txt_55"]) } }

/-- A state whose recorded backup is a directory — the pairing the
`was_directory` recording bug produces for a deleted directory. -/
def c8DirBackupState : MState :=
  { fs := [ (["home"], .dir true), (["home", "user"], .dir true),
            (["home", "user", ".ocd_backups"], .dir true),
            (["home", "user", ".ocd_backups", "docs_55"], .dir true) ],
    history := [], time := 55 }

/-- An executed delete record with a directory backup and the
`was_directory` flag unset, exactly as the recording bug writes it. -/
def c8DirBackupRec : FileOperation :=
  { operation_type := "delete",
    source_path := some (["home", "user", "docs"]),
    executed := true,
    rollback_info :=
      { backup_path :=
          some (["home", "user", ".ocd_backups", "docs_55"]) } }

/-- A state with a directory backup subtree and the original path free. -/
def c8TreeState : MState :=
  { fs := [ (["home"], .dir true), (["home", "user"], .dir true),
            (["home", "user", ".ocd_backups"], .dir true),
            (["home", "user", ".ocd_backups", "docs_55"], .dir true),
            (["home", "user", ".ocd_backups", "docs_55", "a.txt"],
              .file ("xx") true) ],
    history := [], time := 55 }

/-- An executed delete record with a directory backup and the
`was_directory` flag set. -/
def c8TreeRec : FileOperation :=
  { operation_type := "delete",
    source_path := some (["home", "user", "docs"]),
    executed := true,
    rollback_info :=
      { backup_path :=
          some (["home", "user", ".ocd_backups", "docs_55"]),
        was_directory := some true } }

/-- The tree-restore state with the original path still occupied. -/
def c8TreeBlockedState : MState :=
  { fs := [ (["home"], .dir true), (["home", "user"], .dir true),
            (["home", "user", "docs"], .dir true),
            (["home", "user", ".ocd_backups"], .dir true),
            (["home", "user", ".ocd_backups", "docs_55"], .dir true) ],
    history := [], time := 55 }

theorem lookupFS_append_some {fs : FS} {k : List String} {n : FSNode}
    (h : lookupFS fs k = some n) (ys : FS) :
    lookupFS (fs ++ ys) k = some n := by
  induction fs with
  | nil => simp [lookupFS] at h
  | cons e rest ih =>
    simp only [lookupFS, List.cons_append] at h ⊢
    split at h
    · next heq => rw [if_pos heq]; exact h
    · next hne => rw [if_neg hne]; exact ih h

theorem lookupFS_append_none {fs : FS} {k : List String}
    (h : lookupFS fs k = none) (ys : FS) :
    lookupFS (fs ++ ys) k = lookupFS ys k := by
  induction fs with
  | nil => simp
  | cons e rest ih =>
    simp only [lookupFS, List.cons_append] at h ⊢
    split at h
    · exact absurd h (by simp)
    · next hne => rw [if_neg hne]; exact ih h

theorem lookupFS_ne_of_none {fs : FS} {k : List String}
    (h : lookupFS fs k = none) : ∀ e ∈ fs, e.1 ≠ k := by
  induction fs with
  | nil => simp
  | cons e rest ih =>
    simp only [lookupFS] at h
    split at h
    · exact absurd h (by simp)
    · next hne =>
      intro f hf
      rcases List.mem_cons.mp hf with rfl | hmem
      · exact hne
      · exact ih h f hmem

theorem lookupFS_mem_of_some {fs : FS} {k : List String} {n : FSNode}
    (h : lookupFS fs k = some n) : (k, n) ∈ fs := by
  induction fs with
  | nil => simp [lookupFS] at h
  | cons e rest ih =>
    simp only [lookupFS] at h
    split at h
    · next heq =>
      obtain rfl : e.2 = n := Option.some_injective _ h
      exact List.mem_cons.mpr (Or.inl (by rw [← heq]))
    · exact List.mem_cons_of_mem _ (ih h)

theorem lookupFS_append_of_ne {fs ys : FS} {k : List String}
    (h : ∀ e ∈ ys, e.1 ≠ k) :
    lookupFS (fs ++ ys) k = lookupFS fs k := by
  induction fs with
  | nil =>
    simp only [List.nil_append, lookupFS]
    induction ys with
    | nil => simp [lookupFS]
    | cons e rest ih =>
      simp only [lookupFS]
      rw [if_neg (h e (by simp))]
      exact ih (fun f hf => h f (List.mem_cons_of_mem _ hf))
  | cons e rest ih =>
    simp only [lookupFS, List.cons_append]
    split
    · rfl
    · exact ih

theorem lookupFS_removeKey_self (fs : FS) (k : List String) :
    lookupFS (removeKey fs k) k = none := by
  induction fs with
  | nil => simp [removeKey, lookupFS]
  | cons e rest ih =>
    simp only [removeKey, List.filter_cons] at ih ⊢
    by_cases he : e.1 = k
    · rw [if_neg (by simp [he])]
      exact ih
    · rw [if_pos (by simp [he])]
      simp only [lookupFS]
      rw [if_neg he]
      exact ih

theorem lookupFS_removeKey_other {fs : FS} {k k2 : List String}
    (h : k2 ≠ k) : lookupFS (removeKey fs k) k2 = lookupFS fs k2 := by
  induction fs with
  | nil => simp [removeKey]
  | cons e rest ih =>
    simp only [removeKey, List.filter_cons] at ih ⊢
    by_cases he : e.1 = k
    · rw [if_neg (by simp [he])]
      rw [ih]
      simp only [lookupFS]
      rw [if_neg (by rw [he]; exact fun hk => h hk.symm)]
    · rw [if_pos (by simp [he])]
      simp only [lookupFS]
      split
      · rfl
      · exact ih

theorem lookupFS_replaceEntry_self {fs : FS} {k : List String} {n0 n : FSNode}
    (h : lookupFS fs k = some n0) :
    lookupFS (replaceEntry fs k n) k = some n := by
  induction fs with
  | nil => simp [lookupFS] at h
  | cons e rest ih =>
    simp only [lookupFS] at h
    simp only [replaceEntry, List.map_cons]
    split at h
    · next hcond =>
      rw [if_pos hcond]
      simp [lookupFS]
    · next hcond =>
      rw [if_neg hcond]
      simp only [lookupFS]
      rw [if_neg hcond]
      exact ih h

theorem lookupFS_replaceEntry_other {fs : FS} {k k2 : List String}
    {n : FSNode} (h : k2 ≠ k) :
    lookupFS (replaceEntry fs k n) k2 = lookupFS fs k2 := by
  induction fs with
  | nil => simp [replaceEntry]
  | cons e rest ih =>
    simp only [replaceEntry, List.map_cons] at ih ⊢
    by_cases he : e.1 = k
    · rw [if_pos he]
      simp only [lookupFS]
      rw [if_neg (fun hk => h hk.symm), if_neg (by rw [he]; exact fun hk => h hk.symm)]
      exact ih
    · rw [if_neg he]
      simp only [lookupFS]
      split
      · rfl
      · exact ih

theorem isPrefixOf_append_self (p q : List String) :
    p.isPrefixOf (p ++ q) = true :=
  List.isPrefixOf_iff_prefix.mpr (List.prefix_append p q)

theorem exists_drop_of_isPrefixOf {p l : List String}
    (h : p.isPrefixOf l = true) : ∃ r, l = p ++ r := by
  obtain ⟨r, hr⟩ := List.isPrefixOf_iff_prefix.mp h
  exact ⟨r, hr.symm⟩

theorem lookupFS_moveEntries_target {src dst q : List String} :
    ∀ {fs : FS},
    (∀ e ∈ fs, ¬ src.isPrefixOf e.1 = true → e.1 ≠ dst ++ q) →
    lookupFS (moveEntries fs src dst) (dst ++ q) = lookupFS fs (src ++ q) := by
  intro fs
  induction fs with
  | nil => intro _; simp [moveEntries, lookupFS]
  | cons e rest ih =>
    intro hjunk
    simp only [moveEntries, List.map_cons] at ih ⊢
    by_cases hp : src.isPrefixOf e.1 = true
    · rw [if_pos hp]
      obtain ⟨r, hr⟩ := exists_drop_of_isPrefixOf hp
      have hdrop : e.1.drop src.length = r := by rw [hr]; exact List.drop_left src r
      by_cases hrq : r = q
      · subst hrq
        simp only [lookupFS, hdrop]
        rw [if_pos hr]
        simp
      · simp only [lookupFS, hdrop]
        rw [if_neg (fun hc => hrq (List.append_cancel_left hc)),
            if_neg (by rw [hr]; exact fun hc => hrq (List.append_cancel_left hc))]
        exact ih (fun f hf => hjunk f (List.mem_cons_of_mem _ hf))
    · rw [if_neg hp]
      simp only [lookupFS]
      rw [if_neg (hjunk e (List.mem_cons_self _ _) hp),
          if_neg (fun hc => hp (by rw [hc]; exact isPrefixOf_append_self src q))]
      exact ih (fun f hf => hjunk f (List.mem_cons_of_mem _ hf))

theorem lookupFS_moveEntries_other {src dst k : List String} {fs : FS}
    (hk1 : ¬ src.isPrefixOf k = true) (hk2 : ¬ dst.isPrefixOf k = true) :
    lookupFS (moveEntries fs src dst) k = lookupFS fs k := by
  induction fs with
  | nil => simp [moveEntries]
  | cons e rest ih =>
    simp only [moveEntries, List.map_cons] at ih ⊢
    by_cases hp : src.isPrefixOf e.1 = true
    · rw [if_pos hp]
      simp only [lookupFS]
      rw [if_neg (fun hc => hk2 (by rw [← hc]; exact isPrefixOf_append_self _ _)),
          if_neg (fun hc => hk1 (by rw [← hc]; exact hp))]
      exact ih
    · rw [if_neg hp]
      simp only [lookupFS]
      split
      · rfl
      · exact ih

theorem lookupFS_moveEntries_none {src dst k : List String} {fs : FS}
    (hk1 : src.isPrefixOf k = true) (hk2 : ¬ dst.isPrefixOf k = true) :
    lookupFS (moveEntries fs src dst) k = none := by
  induction fs with
  | nil => simp [moveEntries, lookupFS]
  | cons e rest ih =>
    simp only [moveEntries, List.map_cons] at ih ⊢
    by_cases hp : src.isPrefixOf e.1 = true
    · rw [if_pos hp]
      simp only [lookupFS]
      rw [if_neg (fun hc => hk2 (by rw [← hc]; exact isPrefixOf_append_self _ _))]
      exact ih
    · rw [if_neg hp]
      simp only [lookupFS]
      rw [if_neg (fun hc => hp (by rw [hc]; exact hk1))]
      exact ih

theorem lookupFS_append_single_ne {fs : FS} {k d : List String} {n : FSNode}
    (h : k ≠ d) : lookupFS (fs ++ [(d, n)]) k = lookupFS fs k :=
  lookupFS_append_of_ne (by
    intro e he
    simp only [List.mem_singleton] at he
    subst he
    exact fun hc => h hc.symm)

theorem isFileFS_append_dir {fs : FS} {k d : List String} {w : Bool}
    (h : isFileFS fs k = false) :
    isFileFS (fs ++ [(d, FSNode.dir w)]) k = false := by
  unfold isFileFS at h ⊢
  cases hl : lookupFS fs k with
  | some n =>
    rw [lookupFS_append_some hl]
    rw [hl] at h
    exact h
  | none =>
    rw [lookupFS_append_none hl]
    by_cases hkd : k = d
    · subst hkd; simp [lookupFS]
    · simp [lookupFS, Ne.symm hkd]

theorem mkdirChain_preserve_some {k : List String} {n : FSNode} :
    ∀ (dirs : List (List String)) (fs : FS),
    lookupFS fs k = some n → lookupFS (mkdirChain fs dirs).1 k = some n := by
  intro dirs
  induction dirs with
  | nil => intro fs h; exact h
  | cons d rest ih =>
    intro fs h
    simp only [mkdirChain]
    split
    · exact ih _ h
    · exact h
    · exact ih _ (lookupFS_append_some h _)

theorem mkdirChain_preserve_none {k : List String} :
    ∀ (dirs : List (List String)) (fs : FS), k ∉ dirs →
    lookupFS fs k = none → lookupFS (mkdirChain fs dirs).1 k = none := by
  intro dirs
  induction dirs with
  | nil => intro fs _ h; exact h
  | cons d rest ih =>
    intro fs hmem h
    simp only [mkdirChain]
    split
    · exact ih _ (fun hc => hmem (List.mem_cons_of_mem _ hc)) h
    · exact h
    · refine ih _ (fun hc => hmem (List.mem_cons_of_mem _ hc)) ?_
      rw [lookupFS_append_single_ne
        (fun hc => hmem (by rw [hc]; exact List.mem_cons_self _ _))]
      exact h

theorem mkdirChain_ok :
    ∀ (dirs : List (List String)) (fs : FS),
    (∀ d ∈ dirs, isFileFS fs d = false) → (mkdirChain fs dirs).2 = .ok () := by
  intro dirs
  induction dirs with
  | nil => intro fs _; rfl
  | cons d rest ih =>
    intro fs hnofile
    simp only [mkdirChain]
    split
    · exact ih _ (fun f hf => hnofile f (List.mem_cons_of_mem _ hf))
    · next heq =>
      have := hnofile d (List.mem_cons_self _ _)
      rw [isFileFS, heq] at this
      simp at this
    · exact ih _ (fun f hf =>
        isFileFS_append_dir (hnofile f (List.mem_cons_of_mem _ hf)))

theorem ne_of_length_lt {l1 l2 : List String} (h : l1.length < l2.length) :
    l1 ≠ l2 := by
  intro hc
  rw [hc] at h
  exact Nat.lt_irrefl _ h

theorem moveEntries_entriesUnder_keys {fs : FS} {p d : List String} :
    ∀ e ∈ moveEntries (entriesUnder fs p) p d, ∃ r, e.1 = d ++ r := by
  intro e he
  simp only [moveEntries, List.mem_map] at he
  obtain ⟨a, ha, hae⟩ := he
  simp only [entriesUnder, List.mem_filter] at ha
  rw [if_pos (by simpa using ha.2)] at hae
  exact ⟨a.1.drop p.length, by rw [← hae]⟩

theorem lookupFS_none_of_no_prefix {fs : FS} {s : List String}
    (h : ∀ e ∈ fs, ¬ s.isPrefixOf e.1 = true) (q : List String) :
    lookupFS fs (s ++ q) = none := by
  cases hl : lookupFS fs (s ++ q) with
  | none => rfl
  | some n =>
    have hm := lookupFS_mem_of_some hl
    exact absurd (isPrefixOf_append_self s q) (h _ hm)

theorem lookupFS_entriesUnder {p q : List String} :
    ∀ {fs : FS}, lookupFS (entriesUnder fs p) (p ++ q) = lookupFS fs (p ++ q) := by
  intro fs
  induction fs with
  | nil => rfl
  | cons e rest ih =>
    unfold entriesUnder at ih ⊢
    rw [List.filter_cons]
    by_cases hp : p.isPrefixOf e.1 = true
    · rw [if_pos (by simpa using hp)]
      unfold lookupFS
      by_cases he : e.1 = p ++ q
      · rw [if_pos he, if_pos he]
      · rw [if_neg he, if_neg he]
        exact ih
    · rw [if_neg (by simpa using hp)]
      have hne : e.1 ≠ p ++ q := by
        intro hcontra
        exact hp (by rw [hcontra]; exact isPrefixOf_append_self p q)
      conv_rhs => unfold lookupFS
      rw [if_neg hne]
      exact ih

theorem mkdirSingleExistOk_preserve_some {fs : FS} {d k : List String}
    {n : FSNode} (h : lookupFS fs k = some n) :
    lookupFS (mkdirSingleExistOk fs d).1 k = some n := by
  unfold mkdirSingleExistOk
  split
  · exact h
  · exact h
  · split
    · exact h
    · exact lookupFS_append_some h _

theorem mkdirSingleExistOk_preserve_ne {fs : FS} {d k : List String}
    (hk : k ≠ d) :
    lookupFS (mkdirSingleExistOk fs d).1 k = lookupFS fs k := by
  unfold mkdirSingleExistOk
  split
  · rfl
  · rfl
  · split
    · rfl
    · exact lookupFS_append_single_ne hk

theorem copyTreeFS_preserve_of_ne {fs : FS} {src dst k : List String}
    (hk : ∀ r, k ≠ dst ++ r) :
    lookupFS (copyTreeFS fs src dst).1 k = lookupFS fs k := by
  unfold copyTreeFS
  split
  · rfl
  · exact lookupFS_append_of_ne (by
      intro e he
      obtain ⟨r, hr⟩ := moveEntries_entriesUnder_keys e he
      rw [hr]
      exact fun hc => hk r hc.symm)

theorem copyTreeFS_preserve_some {fs : FS} {src dst k : List String}
    {n : FSNode} (h : lookupFS fs k = some n) :
    lookupFS (copyTreeFS fs src dst).1 k = some n := by
  unfold copyTreeFS
  split
  · exact h
  · exact lookupFS_append_some h _

theorem copy2FS_preserve_of_ne {fs : FS} {src dst k : List String}
    (hk1 : k ≠ dst) (hk2 : k ≠ dst ++ [lastName src]) :
    lookupFS (copy2FS fs src dst).1 k = lookupFS fs k := by
  have hkt : k ≠ copy2Target fs src dst := by
    unfold copy2Target
    split
    · exact hk2
    · exact hk1
  unfold copy2FS
  split
  · split
    · rfl
    · exact lookupFS_replaceEntry_other hkt
    · exact lookupFS_append_single_ne hkt
  · rfl
  · rfl

theorem mem_backupDirOf (p : List String) :
    (".ocd_backups" : String) ∈ backupDirOf p := by
  unfold backupDirOf; simp

theorem backupPathOf_eq_append (p : List String) (t : Nat) :
    backupPathOf p t = backupDirOf p ++ [lastName p ++ "_" ++ toString t] :=
  rfl

theorem length_lt_backupPathOf (p : List String) (t : Nat) (r : List String) :
    p.length < (backupPathOf p t ++ r).length := by
  unfold backupPathOf backupDirOf
  simp only [List.length_append, List.length_cons, List.length_nil,
    List.length_dropLast]
  omega

theorem createBackup_preserve_noBk {fs : FS} {p : List String} {t : Nat}
    {k : List String} (hk : noBk k) :
    lookupFS (createBackup fs p t).1 k = lookupFS fs k := by
  have hkdir : k ≠ backupDirOf p := by
    intro hc
    exact hk (by rw [hc]; exact mem_backupDirOf p)
  have hkpath : ∀ r, k ≠ backupPathOf p t ++ r := by
    intro r hc
    refine hk (by rw [hc, backupPathOf_eq_append]; simp [mem_backupDirOf p])
  unfold createBackup
  split
  · next heq =>
    have h1 : (mkdirSingleExistOk fs (backupDirOf p)).1 = _ :=
      congrArg Prod.fst heq
    rw [← h1, mkdirSingleExistOk_preserve_ne hkdir]
  · next fs1 u heq =>
    have hfs1 : (mkdirSingleExistOk fs (backupDirOf p)).1 = fs1 :=
      congrArg Prod.fst heq
    have hbase : lookupFS fs1 k = lookupFS fs k := by
      rw [← hfs1, mkdirSingleExistOk_preserve_ne hkdir]
    split
    · split
      · next heq2 =>
        have h2 : (copyTreeFS fs1 p (backupPathOf p t)).1 = _ :=
          congrArg Prod.fst heq2
        rw [← h2, copyTreeFS_preserve_of_ne hkpath, hbase]
      · next heq2 =>
        have h2 : (copyTreeFS fs1 p (backupPathOf p t)).1 = _ :=
          congrArg Prod.fst heq2
        rw [← h2, copyTreeFS_preserve_of_ne hkpath, hbase]
    · split
      · next heq2 =>
        have h2 : (copy2FS fs1 p (backupPathOf p t)).1 = _ :=
          congrArg Prod.fst heq2
        rw [← h2, copy2FS_preserve_of_ne (by simpa using hkpath [])
          (by simpa using hkpath [lastName p]), hbase]
      · next heq2 =>
        have h2 : (copy2FS fs1 p (backupPathOf p t)).1 = _ :=
          congrArg Prod.fst heq2
        rw [← h2, copy2FS_preserve_of_ne (by simpa using hkpath [])
          (by simpa using hkpath [lastName p]), hbase]

theorem createBackup_preserve_at {fs : FS} {p : List String} {t : Nat}
    {n : FSNode} (h : lookupFS fs p = some n) :
    lookupFS (createBackup fs p t).1 p = some n := by
  have hppath : ∀ r, p ≠ backupPathOf p t ++ r := by
    intro r
    exact ne_of_length_lt (length_lt_backupPathOf p t r)
  unfold createBackup
  split
  · next heq =>
    have h1 : (mkdirSingleExistOk fs (backupDirOf p)).1 = _ :=
      congrArg Prod.fst heq
    rw [← h1]
    exact mkdirSingleExistOk_preserve_some h
  · next fs1 u heq =>
    have hfs1 : (mkdirSingleExistOk fs (backupDirOf p)).1 = fs1 :=
      congrArg Prod.fst heq
    have hbase : lookupFS fs1 p = some n := by
      rw [← hfs1]
      exact mkdirSingleExistOk_preserve_some h
    split
    · split
      · next heq2 =>
        have h2 : (copyTreeFS fs1 p (backupPathOf p t)).1 = _ :=
          congrArg Prod.fst heq2
        rw [← h2]
        exact copyTreeFS_preserve_some hbase
      · next heq2 =>
        have h2 : (copyTreeFS fs1 p (backupPathOf p t)).1 = _ :=
          congrArg Prod.fst heq2
        rw [← h2]
        exact copyTreeFS_preserve_some hbase
    · split
      · next heq2 =>
        have h2 : (copy2FS fs1 p (backupPathOf p t)).1 = _ :=
          congrArg Prod.fst heq2
        rw [← h2, copy2FS_preserve_of_ne (by simpa using hppath [])
          (by simpa using hppath [lastName p])]
        exact hbase
      · next heq2 =>
        have h2 : (copy2FS fs1 p (backupPathOf p t)).1 = _ :=
          congrArg Prod.fst heq2
        rw [← h2, copy2FS_preserve_of_ne (by simpa using hppath [])
          (by simpa using hppath [lastName p])]
        exact hbase

/-! ### Facts about the missing enum members and delete validation -/

theorem safetyLevelAttr_MAXIMUM :
    safetyLevelAttr ("MAXIMUM") = .error (.attributeError ("MAXIMUM")) := by
  rfl

theorem validateDeleteE_error (cfg : Manager) (fs : FS) (op : FileOperation) :
    validateDeleteE cfg fs op = .error (.attributeError ("MAXIMUM")) := by
  unfold validateDeleteE
  rw [safetyLevelAttr_MAXIMUM]
  rfl

theorem validateOperation_delete (cfg : Manager) (fs : FS)
    (op : FileOperation) (h : op.operation_type = "delete") :
    validateOperation cfg fs op = false := by
  unfold validateOperation validateOperationE
  by_cases h1 : (op.source_path.any fun sp => !(isPathSafe cfg fs sp)) = true
  · rw [if_pos (by simpa using h1)]
  · rw [if_neg (by simpa using h1)]
    by_cases h2 : (op.destination_path.any fun dp => !(isPathSafe cfg fs dp)) = true
    · rw [if_pos (by simpa using h2)]
    · rw [if_neg (by simpa using h2), if_pos h, validateDeleteE_error]

theorem deleteFile_always_error (cfg : Manager) (st : MState)
    (p : List String) (force : Bool) :
    deleteFile cfg st p force =
      (st, .error (wrapErr ("File deletion failed: ")
        (.ocdValidation (("Delete operation not allowed: ") ++ pathStr p)))) := by
  unfold deleteFile
  rw [validateOperation_delete _ _ _ rfl]
  rfl

/-- C3 (code_bug): in the source's intent the "maximum" profile blocks
every delete; in the code `SafetyLevel` has no `MAXIMUM` member, so
`_validate_delete_operation` raises `AttributeError`, `validate_operation`
swallows it into `False`, and `delete_file` fails with the wrapped
validation error for EVERY profile, path and `force` value, mutating
nothing — there is no manager whose profile is "maximum" at all. -/
theorem delete_file_always_validation_error (cfg : Manager) (st : MState)
    (p : List String) (force : Bool) :
    deleteFile cfg st p force =
      (st, .error (wrapErr ("File deletion failed: ")
        (.ocdValidation (("Delete operation not allowed: ") ++ pathStr p)))) :=
  deleteFile_always_error cfg st p force

/-- C4 (confirmed): the enumeration defines neither `MAXIMUM` nor
`MINIMAL`, the constructor fails with the attribute-lookup error for every
safety level before producing any settings, and the CLI safety map fails
on its first entry. -/
theorem manager_never_constructible :
    (∀ (lvl : SafetyLevel) (b : Bool) (m : Nat),
      mkFileOperationManager lvl b m = .error (.attributeError ("MAXIMUM"))) ∧
    safetyLevelMember ("MAXIMUM") = none ∧
    safetyLevelMember ("MINIMAL") = none ∧
    cliSafetyMap = .error (.attributeError ("MINIMAL")) := by
  refine ⟨?_, rfl, rfl, rfl⟩
  intro lvl b m
  unfold mkFileOperationManager configureSafetySettings
  rw [safetyLevelAttr_MAXIMUM]
  rfl

/-- C9 (code_bug): no `delete_file` call can succeed (validation always
fails on the missing enum member), and even the post-validation body
computes `was_directory` from `path.is_dir()` AFTER the deletion, so the
recorded flag is `False` even when a directory was deleted. -/
theorem delete_record_was_directory_wrong :
    (deleteFile testManager dirState (["home", "user", "docs"]) false).2 =
      .error (wrapErr ("File deletion failed: ")
        (.ocdValidation (("Delete operation not allowed: ") ++
          pathStr (["home", "user", "docs"])))) ∧
    isDirFS dirState.fs (["home", "user", "docs"]) = true ∧
    (deleteFileChecked testManager dirState (["home", "user", "docs"])).2.map
        (fun r => (r.operation.executed,
          r.operation.rollback_info.was_directory,
          (r.operation.rollback_info.backup_path).isSome)) =
      .ok (true, some false, true) := by
  refine ⟨?_, rfl, rfl⟩
  rw [deleteFile_always_error]

/-- C2 (code_bug): a successfully executed copy cannot be rolled back —
the rollback path calls `delete_file`, which always fails on the missing
`SafetyLevel.MAXIMUM` member — so rolling back the full history of a
single successful copy leaves the copy in place and reports a per-record
failure instead of restoring the pre-copy state. -/
theorem rollback_of_copy_fails :
    c2Copy.2.map (fun r => r.success) = .ok true ∧
    lookupFS c2Copy.1.fs (["home", "user", "c.txt"]) =
      some (.file ("v0") true) ∧
    lookupFS homeState.fs (["home", "user", "c.txt"]) = none ∧
    c2Rollback.2.map (fun r => r.success) = [false] ∧
    lookupFS c2Rollback.1.fs (["home", "user", "c.txt"]) =
      some (.file ("v0") true) := by
  exact ⟨rfl, rfl, rfl, rfl, rfl⟩

/-- C1 (counterexample): moving an existing file onto its own path with
conflict resolution disabled succeeds while the source still exists, so
the claimed dichotomy — success implies the source no longer exists — is
false on the code. -/
theorem move_self_succeeds_source_remains :
    c1SelfMove.2.map (fun r => (r.success, r.destination)) =
      .ok (true, some (["home", "user", "d.txt"])) ∧
    existsFS c1SelfMove.1.fs (["home", "user", "d.txt"]) = true ∧
    lookupFS c1SelfMove.1.fs (["home", "user", "d.txt"]) =
      some (.file ("v0") true) := by
  exact ⟨rfl, rfl, rfl⟩

/-- C6 (counterexample): `rename_file` with new name `"."` sanitizes to
the empty string, the destination degenerates to the parent directory
itself, conflict resolution then retargets the grandparent, and the file
is written outside its original parent directory. -/
theorem rename_dot_escapes_parent :
    pyName (".") = "" ∧
    c6Rename.2.map (fun r => r.destination) =
      .ok (some (["home", "user (1)"])) ∧
    lookupFS c6Rename.1.fs (["home", "user (1)"]) =
      some (.file ("v0") true) ∧
    (["home", "user (1)"] : List String).dropLast ≠
      (["home", "user", "d.txt"] : List String).dropLast := by
  exact ⟨rfl, rfl, rfl, by decide⟩

/-- C7 (counterexample): rolling back an executed move whose recorded
destination no longer exists silently reports success and changes nothing,
instead of failing loudly as the claim requires. -/
theorem rollback_move_missing_destination_silent :
    existsFS homeState.fs (["home", "user", "gone.txt"]) = false ∧
    (rollbackSingleOperation testManager homeState c7MoveRec).2.map
      (fun r => r.success) = .ok true ∧
    (rollbackSingleOperation testManager homeState c7MoveRec).1 =
      homeState := by
  exact ⟨rfl, rfl, rfl⟩

/-- C8 (counterexample): rolling back an executed delete record that has
no recorded backup reports success (a silent no-op) for that record, not
the failure the claim requires. -/
theorem rollback_delete_no_backup_silent :
    c8DelRec.rollback_info.backup_path = none ∧
    (rollbackSingleOperation testManager homeState c8DelRec).2.map
      (fun r => r.success) = .ok true ∧
    (rollbackSingleOperation testManager homeState c8DelRec).1 =
      homeState := by
  exact ⟨rfl, rfl, rfl⟩

/-- C10 (counterexample): a readable, writable ten-byte file under a
profile whose `max_file_size` is one byte still passes `_is_path_safe`,
because the body never consults the size limit. -/
theorem oversized_file_passes_path_safety :
    tinyLimitManager.safety_settings.max_file_size = 1 ∧
    lookupFS bigFS (["data", "big.bin"]) =
      some (.file ("0123456789") true) ∧
    ("0123456789" : String).length = 10 ∧
    isPathSafe tinyLimitManager bigFS (["data", "big.bin"]) = true := by
  exact ⟨rfl, rfl, rfl, rfl⟩

/-- C10 (amended theorem): `_is_path_safe` is exactly the forbidden-prefix
check on the rendered path conjoined with, when `validate_permissions` is
set, writability of an existing node; the configured `max_file_size` is
never consulted, and the check is a total boolean function — it rejects by
returning false, never by raising. -/
theorem is_path_safe_characterization (cfg : Manager) (fs : FS)
    (p : List String) :
    isPathSafe cfg fs p =
      (!(cfg.safety_settings.forbidden_paths.any
          (fun f => strStartsWith (pathStr p) f)) &&
       (!cfg.safety_settings.validate_permissions ||
        (match lookupFS fs p with
         | some n => n.writableBit
         | none => true))) := by
  unfold isPathSafe
  by_cases h1 : (cfg.safety_settings.forbidden_paths.any
      (fun f => strStartsWith (pathStr p) f)) = true
  · rw [if_pos h1, h1]
    rfl
  · rw [if_neg h1, Bool.not_eq_true] at *
    rw [h1]
    by_cases h2 : cfg.safety_settings.validate_permissions = true
    · rw [if_pos h2, h2]
      cases hl : lookupFS fs p with
      | none => simp
      | some n =>
        cases n with
        | file c w =>
          simp only [isFileFS, isDirFS, hl, FSNode.writableBit]
          cases w <;> simp
        | dir w =>
          simp only [isFileFS, isDirFS, hl, FSNode.writableBit]
          cases w <;> simp
    · rw [if_neg h2, Bool.not_eq_true] at *
      rw [h2]
      simp

theorem moveFinalDestination_of_free {fs : FS} {d : List String}
    (rc : Bool) (t : Nat) (h : existsFS fs d = false) :
    moveFinalDestination fs d rc t = d := by
  unfold moveFinalDestination
  rw [if_neg (by simp [h])]

theorem resolveGo_spec (fs : FS) (par : List String) (base ext : String)
    (t : Nat) :
    ∀ (fuel c : Nat), c + fuel = 1000 → 1 ≤ c →
    (∃ n, c ≤ n ∧ n ≤ 1000 ∧
      resolveGo fs par base ext t c fuel =
        par ++ [conflictName base ext n] ∧
      existsFS fs (par ++ [conflictName base ext n]) = false ∧
      ∀ m, c ≤ m → m < n →
        existsFS fs (par ++ [conflictName base ext m]) = true) ∨
    ((∀ m, c ≤ m → m ≤ 1000 →
        existsFS fs (par ++ [conflictName base ext m]) = true) ∧
      resolveGo fs par base ext t c fuel =
        par ++ [timestampName base ext t]) := by
  intro fuel
  induction fuel with
  | zero =>
    intro c hsum hc1
    by_cases h : existsFS fs (par ++ [conflictName base ext c]) = true
    · right
      refine ⟨?_, ?_⟩
      · intro m hcm hm1000
        have : m = c := by omega
        rw [this]
        exact h
      · unfold resolveGo
        rw [if_neg (by simp [h])]
    · left
      refine ⟨c, Nat.le_refl c, by omega, ?_, by simpa using h, ?_⟩
      · unfold resolveGo
        rw [if_pos (by simp [h])]
      · intro m hcm hmc
        omega
  | succ fuel ih =>
    intro c hsum hc1
    by_cases h : existsFS fs (par ++ [conflictName base ext c]) = true
    · have hrec : resolveGo fs par base ext t c (fuel + 1) =
          resolveGo fs par base ext t (c + 1) fuel := by
        conv_lhs => rw [resolveGo]
        rw [if_neg (by simp [h])]
      rcases ih (c + 1) (by omega) (by omega) with
        ⟨n, hcn, hn1000, heq, hfree, hprev⟩ | ⟨hall, heq⟩
      · left
        refine ⟨n, by omega, hn1000, by rw [hrec]; exact heq, hfree, ?_⟩
        intro m hcm hmn
        by_cases hmc : m = c
        · rw [hmc]; exact h
        · exact hprev m (by omega) hmn
      · right
        refine ⟨?_, by rw [hrec]; exact heq⟩
        intro m hcm hm1000
        by_cases hmc : m = c
        · rw [hmc]; exact h
        · exact hall m (by omega) hm1000
    · left
      refine ⟨c, Nat.le_refl c, by omega, ?_, by simpa using h, ?_⟩
      · unfold resolveGo
        rw [if_pos (by simp [h])]
      · intro m hcm hmc
        omega

/-- C5 (confirmed): for an occupied desired path the resolver returns
`parent / "{stem} ({n}){suffix}"` for the smallest `n ≥ 1` (at most 1000)
whose name is free, probing sequentially, and falls back to the
timestamp-suffixed name when all of `1..1000` are occupied, so resolution
always terminates; at the `move_file` level a free destination is returned
unchanged; and with `d.txt`, `d (1).txt`, `d (2).txt` occupied the
resolver yields `d (3).txt`. -/
theorem conflict_resolution_spec :
    (∀ (fs : FS) (p : List String) (t : Nat), existsFS fs p = true →
      (∃ n, 1 ≤ n ∧ n ≤ 1000 ∧
        resolveNamingConflict fs p t = p.dropLast ++
          [conflictName (pyStem (lastName p)) (pySuffix (lastName p)) n] ∧
        existsFS fs (p.dropLast ++
          [conflictName (pyStem (lastName p)) (pySuffix (lastName p)) n]) =
            false ∧
        ∀ m, 1 ≤ m → m < n →
          existsFS fs (p.dropLast ++
            [conflictName (pyStem (lastName p)) (pySuffix (lastName p)) m]) =
              true) ∨
      ((∀ m, 1 ≤ m → m ≤ 1000 →
          existsFS fs (p.dropLast ++
            [conflictName (pyStem (lastName p)) (pySuffix (lastName p)) m]) =
              true) ∧
        resolveNamingConflict fs p t = p.dropLast ++
          [timestampName (pyStem (lastName p)) (pySuffix (lastName p)) t])) ∧
    (∀ (fs : FS) (d : List String) (rc : Bool) (t : Nat),
      existsFS fs d = false → moveFinalDestination fs d rc t = d) ∧
    resolveNamingConflict homeFS (["home", "user", "d.txt"]) 55 =
      (["home", "user", "d (3).txt"]) := by
  refine ⟨?_, ?_, rfl⟩
  · intro fs p t _
    exact resolveGo_spec fs p.dropLast (pyStem (lastName p))
      (pySuffix (lastName p)) t 999 1 (by omega) (Nat.le_refl 1)
  · intro fs d rc t h
    exact moveFinalDestination_of_free rc t h

/-- C5 witness: the spec of the resolver applied to the concrete home
directory where `d.txt`, `d (1).txt` and `d (2).txt` are occupied. -/
theorem conflict_resolution_spec_witness :
    existsFS homeFS (["home", "user", "d.txt"]) = true ∧
    ((∃ n, 1 ≤ n ∧ n ≤ 1000 ∧
      resolveNamingConflict homeFS (["home", "user", "d.txt"]) 55 =
        (["home", "user", "d.txt"] : List String).dropLast ++
          [conflictName (pyStem (lastName (["home", "user", "d.txt"])))
            (pySuffix (lastName (["home", "user", "d.txt"]))) n] ∧
      existsFS homeFS ((["home", "user", "d.txt"] : List String).dropLast ++
        [conflictName (pyStem (lastName (["home", "user", "d.txt"])))
          (pySuffix (lastName (["home", "user", "d.txt"]))) n]) = false ∧
      ∀ m, 1 ≤ m → m < n →
        existsFS homeFS ((["home", "user", "d.txt"] : List String).dropLast ++
          [conflictName (pyStem (lastName (["home", "user", "d.txt"])))
            (pySuffix (lastName (["home", "user", "d.txt"]))) m]) = true) ∨
    ((∀ m, 1 ≤ m → m ≤ 1000 →
        existsFS homeFS ((["home", "user", "d.txt"] : List String).dropLast ++
          [conflictName (pyStem (lastName (["home", "user", "d.txt"])))
            (pySuffix (lastName (["home", "user", "d.txt"]))) m]) = true) ∧
      resolveNamingConflict homeFS (["home", "user", "d.txt"]) 55 =
        (["home", "user", "d.txt"] : List String).dropLast ++
          [timestampName (pyStem (lastName (["home", "user", "d.txt"])))
            (pySuffix (lastName (["home", "user", "d.txt"]))) 55])) :=
  ⟨rfl, conflict_resolution_spec.1 homeFS (["home", "user", "d.txt"]) 55 rfl⟩

theorem resolveGo_parent (fs : FS) (par : List String) (base ext : String)
    (t : Nat) :
    ∀ (fuel c : Nat), ∃ x, resolveGo fs par base ext t c fuel = par ++ [x] := by
  intro fuel
  induction fuel with
  | zero =>
    intro c
    unfold resolveGo
    by_cases h : existsFS fs (par ++ [conflictName base ext c]) = true
    · exact ⟨timestampName base ext t, by rw [if_neg (by simp [h])]⟩
    · exact ⟨conflictName base ext c, by rw [if_pos (by simp [h])]⟩
  | succ fuel ih =>
    intro c
    by_cases h : existsFS fs (par ++ [conflictName base ext c]) = true
    · obtain ⟨x, hx⟩ := ih (c + 1)
      refine ⟨x, ?_⟩
      conv_lhs => rw [resolveGo]
      rw [if_neg (by simp [h])]
      exact hx
    · refine ⟨conflictName base ext c, ?_⟩
      conv_lhs => rw [resolveGo]
      rw [if_pos (by simp [h])]

theorem resolveNamingConflict_parent (fs : FS) (p : List String) (t : Nat) :
    ∃ x, resolveNamingConflict fs p t = p.dropLast ++ [x] :=
  resolveGo_parent fs p.dropLast (pyStem (lastName p)) (pySuffix (lastName p))
    t 999 1

theorem moveFinalDestination_dropLast {fs : FS} {par : List String}
    {nm : String} (rc : Bool) (t : Nat) :
    (moveFinalDestination fs (par ++ [nm]) rc t).dropLast = par := by
  unfold moveFinalDestination
  split
  · obtain ⟨x, hx⟩ := resolveNamingConflict_parent fs (par ++ [nm]) t
    rw [hx]
    simp
  · simp

theorem moveFile_ok_destination {cfg : Manager} {st : MState}
    {src dst : List String} {rc : Bool} {st1 : MState}
    {res : OperationResult}
    (h : moveFile cfg st src dst rc = (st1, .ok res)) :
    res.destination = some (moveFinalDestination st.fs dst rc st.time) := by
  unfold moveFile at h
  split at h
  · simp [Prod.ext_iff] at h
  · split at h
    · simp [Prod.ext_iff] at h
    · split at h
      · simp [Prod.ext_iff] at h
      · split at h
        · simp [Prod.ext_iff] at h
        · split at h
          · simp [Prod.ext_iff] at h
          · simp only [Prod.mk.injEq] at h
            obtain ⟨h1, h2⟩ := h
            obtain rfl := Except.ok.inj h2
            rfl

/-- C6 (amended theorem): for a new name whose sanitized final component
is a real filename (nonempty and not the literal `..`, which the model's
path semantics do not resolve), `rename_file` targets exactly
`current.parent / sanitized` and on success writes its final destination
inside the original parent directory; the counterexample shows that names
sanitizing to the empty string (`"."`, `""`, `"/"`) escape to the
grandparent instead. -/
theorem rename_containment (cfg : Manager) (st : MState)
    (current : List String) (s : String)
    (h1 : pyName s ≠ "") (h2 : pyName s ≠ "..") :
    renamePath current s = current.dropLast ++ [pyName s] ∧
    ∀ st1 res, renameFile cfg st current s = (st1, .ok res) →
      res.operation.destination_path =
        some (current.dropLast ++ [pyName s]) ∧
      ∃ d, res.destination = some d ∧ d.dropLast = current.dropLast := by
  have hpath : renamePath current s = current.dropLast ++ [pyName s] := by
    unfold renamePath joinName
    rw [if_neg h1]
  refine ⟨hpath, ?_⟩
  intro st1 res h
  unfold renameFile at h
  cases hmv : moveFile cfg st current (renamePath current s) true with
  | mk stm r =>
    rw [hmv] at h
    cases r with
    | error e => simp [Prod.ext_iff] at h
    | ok resm =>
      simp only [Prod.mk.injEq] at h
      obtain ⟨hst, hres⟩ := h
      obtain rfl := Except.ok.inj hres
      constructor
      · show (renameOp current s).destination_path = _
        unfold renameOp
        rw [hpath]
      · have hdest := moveFile_ok_destination hmv
        refine ⟨moveFinalDestination st.fs (renamePath current s) true st.time,
          hdest, ?_⟩
        rw [hpath]
        exact moveFinalDestination_dropLast true st.time

/-- C6 witness: a clean rename with new name `e.txt` stays in the parent. -/
theorem rename_containment_witness :
    (pyName ("e.txt") ≠ "" ∧ pyName ("e.txt") ≠ "..") ∧
    (renamePath (["home", "user", "d.txt"]) ("e.txt") =
      (["home", "user", "d.txt"] : List String).dropLast ++
        [pyName ("e.txt")] ∧
    ∀ st1 res,
      renameFile testManager homeState (["home", "user", "d.txt"]) ("e.txt") =
        (st1, .ok res) →
      res.operation.destination_path =
        some ((["home", "user", "d.txt"] : List String).dropLast ++
          [pyName ("e.txt")]) ∧
      ∃ d, res.destination = some d ∧
        d.dropLast = (["home", "user", "d.txt"] : List String).dropLast) :=
  ⟨⟨by decide, by decide⟩,
    rename_containment testManager homeState (["home", "user", "d.txt"])
      ("e.txt") (by decide) (by decide)⟩

theorem isPrefixOf_self (l : List String) : l.isPrefixOf l = true :=
  List.isPrefixOf_iff_prefix.mpr (List.prefix_refl l)

theorem mem_ancestorChain_length {q p : List String}
    (h : q ∈ ancestorChain p) : q.length ≤ p.length := by
  unfold ancestorChain at h
  simp only [List.mem_map, List.mem_range] at h
  obtain ⟨i, hi, rfl⟩ := h
  rw [List.length_take]
  omega

theorem mem_ancestorChain_isPrefixOf {q p : List String}
    (h : q ∈ ancestorChain p) : q.isPrefixOf p = true := by
  unfold ancestorChain at h
  simp only [List.mem_map, List.mem_range] at h
  obtain ⟨i, hi, rfl⟩ := h
  exact List.isPrefixOf_iff_prefix.mpr (List.take_prefix _ _)

theorem not_mem_ancestorChain_dropLast {dst : List String} :
    dst ∉ ancestorChain dst.dropLast := by
  intro h
  have hlen := mem_ancestorChain_length h
  rw [List.length_dropLast] at hlen
  cases dst with
  | nil => simp [ancestorChain] at h
  | cons a l =>
    simp only [List.length_cons] at hlen
    omega

theorem isPrefixOf_trans {p q r : List String}
    (h1 : p.isPrefixOf q = true) (h2 : q.isPrefixOf r = true) :
    p.isPrefixOf r = true :=
  List.isPrefixOf_iff_prefix.mpr
    ((List.isPrefixOf_iff_prefix.mp h1).trans (List.isPrefixOf_iff_prefix.mp h2))

theorem dropLast_isPrefixOf (l : List String) :
    l.dropLast.isPrefixOf l = true :=
  List.isPrefixOf_iff_prefix.mpr (List.dropLast_prefix l)

theorem not_mem_ancestorChain_of_not_isPrefixOf {q dst : List String}
    (h : ¬ q.isPrefixOf dst = true) : q ∉ ancestorChain dst.dropLast :=
  fun hm => h (isPrefixOf_trans (mem_ancestorChain_isPrefixOf hm)
    (dropLast_isPrefixOf dst))

theorem validateOperation_moveOp {cfg : Manager} {fs : FS}
    {src dst : List String} (hs : isPathSafe cfg fs src = true)
    (hd : isPathSafe cfg fs dst = true) :
    validateOperation cfg fs (moveOp src dst) = true := by
  unfold validateOperation validateOperationE moveOp validateMoveCopyE
  simp [hs, hd]

theorem moveFile_clean (cfg : Manager) (st : MState) (src dst : List String)
    (node : FSNode)
    (hsafe1 : isPathSafe cfg st.fs src = true)
    (hsafe2 : isPathSafe cfg st.fs dst = true)
    (hsrc : lookupFS st.fs src = some node)
    (hdst : lookupFS st.fs dst = none)
    (hanc : ∀ q ∈ ancestorChain dst.dropLast, isFileFS st.fs q = false)
    (hnest1 : ¬ src.isPrefixOf dst = true)
    (hnest2 : ¬ dst.isPrefixOf src = true) :
    ((moveFile cfg st src dst true).2).toOption.map
        (fun r => (r.success, r.destination)) = some (true, some dst) ∧
    lookupFS (moveFile cfg st src dst true).1.fs dst = some node ∧
    lookupFS (moveFile cfg st src dst true).1.fs src = none := by
  have hfinal : moveFinalDestination st.fs dst true st.time = dst :=
    moveFinalDestination_of_free true st.time (by simp [existsFS, hdst])
  have hval : validateOperation cfg st.fs (moveOp src dst) = true :=
    validateOperation_moveOp hsafe1 hsafe2
  have hex : existsFS st.fs src = true := by simp [existsFS, hsrc]
  have hmk_ok : (mkdirParents st.fs dst.dropLast).2 = .ok () :=
    mkdirChain_ok _ st.fs hanc
  cases hmk : mkdirParents st.fs dst.dropLast with
  | mk fs1 r1 =>
    have hr1 : r1 = .ok () := by
      have := congrArg Prod.snd hmk
      exact this.symm.trans hmk_ok
    subst hr1
    have hfst : (mkdirParents st.fs dst.dropLast).1 = fs1 :=
      congrArg Prod.fst hmk
    have hfs1dst : lookupFS fs1 dst = none := by
      rw [← hfst]
      exact mkdirChain_preserve_none _ st.fs not_mem_ancestorChain_dropLast hdst
    have hfs1src : lookupFS fs1 src = some node := by
      rw [← hfst]
      exact mkdirChain_preserve_some _ st.fs hsrc
    have hbk : moveBackupStep cfg fs1 dst st.time = (fs1, .ok none) := by
      unfold moveBackupStep
      rw [if_neg (by simp [existsFS, hfs1dst])]
    have hneq : src ≠ dst := by
      intro hc
      rw [hc, hdst] at hsrc
      exact Option.noConfusion hsrc
    have hsm : shutilMove fs1 src dst =
        (moveEntries fs1 src dst, .ok ()) := by
      unfold shutilMove
      rw [if_neg (by simp [existsFS, hfs1src]),
        if_neg (by simp [isDirFS, hfs1dst]), if_neg hneq]
      unfold osRename
      rw [if_neg (fun hc => hnest1 hc.2), hfs1dst]
    have hjunk : ∀ e ∈ fs1, ¬ src.isPrefixOf e.1 = true → e.1 ≠ dst ++ [] := by
      intro e he _
      rw [List.append_nil]
      exact lookupFS_ne_of_none hfs1dst e he
    have htgt : lookupFS (moveEntries fs1 src dst) dst = some node := by
      have := @lookupFS_moveEntries_target src dst [] fs1 hjunk
      rw [List.append_nil, List.append_nil] at this
      rw [this]
      exact hfs1src
    have hgone : lookupFS (moveEntries fs1 src dst) src = none :=
      lookupFS_moveEntries_none (isPrefixOf_self src) hnest2
    unfold moveFile
    rw [if_neg (by simp [hval]), if_neg (by simp [hex]), hfinal, hmk]
    dsimp only
    rw [hbk]
    dsimp only
    rw [hsm]
    exact ⟨rfl, htgt, hgone⟩

/-- C7 (amended theorem): rolling back an executed move record whose
recorded destination still exists (with the original source location free,
its ancestor directories intact, both paths safe and neither nested in the
other) moves the destination back to the original source path and reports
success; when the destination is gone the rollback silently reports
success without restoring (the counterexample), rather than failing
loudly. -/
theorem rollback_move_restores (cfg : Manager) (st : MState)
    (op : FileOperation) (d s : List String) (node : FSNode)
    (htype : op.operation_type = "move")
    (hexec : op.executed = true)
    (hd : op.destination_path = some d)
    (hs : op.source_path = some s)
    (hld : lookupFS st.fs d = some node)
    (hls : lookupFS st.fs s = none)
    (hsafe1 : isPathSafe cfg st.fs d = true)
    (hsafe2 : isPathSafe cfg st.fs s = true)
    (hanc : ∀ q ∈ ancestorChain s.dropLast, isFileFS st.fs q = false)
    (hnest1 : ¬ d.isPrefixOf s = true)
    (hnest2 : ¬ s.isPrefixOf d = true) :
    ((rollbackSingleOperation cfg st op).2).toOption.map
        (fun r => r.success) = some true ∧
    lookupFS (rollbackSingleOperation cfg st op).1.fs s = some node ∧
    lookupFS (rollbackSingleOperation cfg st op).1.fs d = none := by
  have hclean := moveFile_clean cfg st d s node hsafe1 hsafe2 hld hls hanc
    hnest1 hnest2
  unfold rollbackSingleOperation
  rw [hexec, if_neg (by simp)]
  unfold rollbackAction
  rw [if_pos htype, hd]
  dsimp only
  rw [if_pos (show existsFS st.fs d = true by simp [existsFS, hld]), hs]
  dsimp only
  cases hmv : moveFile cfg st d s true with
  | mk st1 r =>
    rw [hmv] at hclean
    cases r with
    | error e => simp [Except.toOption] at hclean
    | ok resm => exact ⟨rfl, hclean.2.1, hclean.2.2⟩

/-- C7 witness: the amended rollback behavior at a concrete executed move
record whose destination `moved.txt` still exists. -/
theorem rollback_move_restores_witness :
    ((rollbackSingleOperation testManager
        { fs := [ (["home"], .dir true), (["home", "user"], .dir true),
                  (["home", "user", "moved.txt"], .file ("mv") true) ],
          history := [], time := 7 }
        { operation_type := "move",
          source_path := some (["home", "user", "orig.txt"]),
          destination_path := some (["home", "user", "moved.txt"]),
          executed := true }).2).toOption.map (fun r => r.success) =
      some true ∧
    lookupFS (rollbackSingleOperation testManager
        { fs := [ (["home"], .dir true), (["home", "user"], .dir true),
                  (["home", "user", "moved.txt"], .file ("mv") true) ],
          history := [], time := 7 }
        { operation_type := "move",
          source_path := some (["home", "user", "orig.txt"]),
          destination_path := some (["home", "user", "moved.txt"]),
          executed := true }).1.fs (["home", "user", "orig.txt"]) =
      some (.file ("mv") true) ∧
    lookupFS (rollbackSingleOperation testManager
        { fs := [ (["home"], .dir true), (["home", "user"], .dir true),
                  (["home", "user", "moved.txt"], .file ("mv") true) ],
          history := [], time := 7 }
        { operation_type := "move",
          source_path := some (["home", "user", "orig.txt"]),
          destination_path := some (["home", "user", "moved.txt"]),
          executed := true }).1.fs (["home", "user", "moved.txt"]) = none :=
  rollback_move_restores testManager
    { fs := [ (["home"], .dir true), (["home", "user"], .dir true),
              (["home", "user", "moved.txt"], .file ("mv") true) ],
      history := [], time := 7 }
    { operation_type := "move",
      source_path := some (["home", "user", "orig.txt"]),
      destination_path := some (["home", "user", "moved.txt"]),
      executed := true }
    (["home", "user", "moved.txt"]) (["home", "user", "orig.txt"])
    (.file ("mv") true) rfl rfl rfl rfl rfl rfl (by decide) (by decide)
    (by decide) (by decide) (by decide)

theorem rollbackLoop_length (cfg : Manager) :
    ∀ (l : List FileOperation) (st : MState),
    (rollbackLoop cfg st l).2.length = l.length := by
  intro l
  induction l with
  | nil => intro st; rfl
  | cons op rest ih =>
    intro st
    unfold rollbackLoop
    cases hstep : rollbackSingleOperation cfg st op with
    | mk st1 r =>
      cases r with
      | ok v => simp [ih st1]
      | error e => simp [ih st1]

/-- C8 (amended theorem): rolling back an executed delete record with no
recorded backup silently succeeds as a no-op for that record — it does not
surface a failure as the claim requires (the counterexample).  When a
backup is recorded and exists, the code picks recursive `copytree` exactly
when the recorded `was_directory` flag is set (which real records never
are, per the recording bug) and `copy2` otherwise, and then: a file backup
is restored to the original path when that path is not currently a
directory; when the original path is currently a directory the backup
lands inside it, at original/backup-name, while still reporting success;
a directory backup with the flag unset — the very pairing the recording
bug produces for a deleted directory — makes `copy2` raise
`IsADirectoryError`, a per-record failure that leaves the filesystem
unchanged; with the flag set, `copytree` restores the whole backup subtree
to the original path when nothing occupies that path, and raises
`FileExistsError` — a per-record failure, filesystem unchanged — when the
original path still exists.  A batch rollback always returns exactly one
result per record, so the remaining records still proceed. -/
theorem rollback_delete_semantics :
    (∀ (cfg : Manager) (st : MState) (op : FileOperation),
      op.operation_type = "delete" → op.executed = true →
      op.rollback_info.backup_path = none →
      rollbackSingleOperation cfg st op =
        (st, .ok { success := true, operation := op,
                   message := "Operation rolled back successfully" })) ∧
    (∀ (cfg : Manager) (st : MState) (op : FileOperation)
      (bp s : List String) (c : String) (w : Bool),
      op.operation_type = "delete" → op.executed = true →
      op.rollback_info.backup_path = some bp →
      op.rollback_info.was_directory ≠ some true →
      op.source_path = some s →
      lookupFS st.fs bp = some (.file c w) →
      isDirFS st.fs s = false →
      ((rollbackSingleOperation cfg st op).2).toOption.map
        (fun r => r.success) = some true ∧
      lookupFS (rollbackSingleOperation cfg st op).1.fs s =
        some (.file c w)) ∧
    (∀ (cfg : Manager) (st : MState) (op : FileOperation)
      (bp s : List String) (c : String) (w : Bool),
      op.operation_type = "delete" → op.executed = true →
      op.rollback_info.backup_path = some bp →
      op.rollback_info.was_directory ≠ some true →
      op.source_path = some s →
      lookupFS st.fs bp = some (.file c w) →
      isDirFS st.fs s = true →
      lookupFS st.fs (s ++ [lastName bp]) = none →
      ((rollbackSingleOperation cfg st op).2).toOption.map
        (fun r => r.success) = some true ∧
      lookupFS (rollbackSingleOperation cfg st op).1.fs
        (s ++ [lastName bp]) = some (.file c w) ∧
      isDirFS (rollbackSingleOperation cfg st op).1.fs s = true) ∧
    (∀ (cfg : Manager) (st : MState) (op : FileOperation)
      (bp s : List String) (b : Bool),
      op.operation_type = "delete" → op.executed = true →
      op.rollback_info.backup_path = some bp →
      op.rollback_info.was_directory ≠ some true →
      op.source_path = some s →
      lookupFS st.fs bp = some (.dir b) →
      ((rollbackSingleOperation cfg st op).2).toOption = none ∧
      (rollbackSingleOperation cfg st op).1.fs = st.fs) ∧
    (∀ (cfg : Manager) (st : MState) (op : FileOperation)
      (bp s : List String),
      op.operation_type = "delete" → op.executed = true →
      op.rollback_info.backup_path = some bp →
      op.rollback_info.was_directory = some true →
      op.source_path = some s →
      existsFS st.fs bp = true →
      (∀ e ∈ st.fs, ¬ s.isPrefixOf e.1 = true) →
      ((rollbackSingleOperation cfg st op).2).toOption.map
        (fun r => r.success) = some true ∧
      (∀ (q : List String) (n : FSNode), lookupFS st.fs (bp ++ q) = some n →
        lookupFS (rollbackSingleOperation cfg st op).1.fs (s ++ q) =
          some n)) ∧
    (∀ (cfg : Manager) (st : MState) (op : FileOperation)
      (bp s : List String),
      op.operation_type = "delete" → op.executed = true →
      op.rollback_info.backup_path = some bp →
      op.rollback_info.was_directory = some true →
      op.source_path = some s →
      existsFS st.fs bp = true →
      existsFS st.fs s = true →
      ((rollbackSingleOperation cfg st op).2).toOption = none ∧
      (rollbackSingleOperation cfg st op).1.fs = st.fs) ∧
    (∀ (cfg : Manager) (st : MState) (ops : List FileOperation),
      (rollbackOperations cfg st ops).2.length = ops.length) := by
  refine ⟨?_, ?_, ?_, ?_, ?_, ?_, ?_⟩
  · intro cfg st op htype hexec hbp
    unfold rollbackSingleOperation
    rw [hexec, if_neg (by simp)]
    unfold rollbackAction
    rw [htype]
    rw [if_neg (by decide), if_neg (by decide), if_neg (by decide),
      if_pos rfl, hbp]
  · intro cfg st op bp s c w htype hexec hbp hwd hs hlbp hdirs
    have hct : copy2Target st.fs bp s = s := by
      unfold copy2Target
      rw [if_neg (by simp [hdirs])]
    unfold rollbackSingleOperation
    rw [hexec, if_neg (by simp)]
    unfold rollbackAction
    rw [htype]
    rw [if_neg (by decide), if_neg (by decide), if_neg (by decide),
      if_pos rfl, hbp]
    dsimp only
    rw [if_pos (show existsFS st.fs bp = true by simp [existsFS, hlbp]), hs]
    dsimp only
    rw [if_neg hwd]
    unfold copy2FS
    rw [hlbp, hct]
    cases hls2 : lookupFS st.fs s with
    | none =>
      dsimp only
      refine ⟨rfl, ?_⟩
      rw [lookupFS_append_none hls2]
      simp [lookupFS]
    | some nn =>
      cases nn with
      | file c2 w2 =>
        dsimp only
        refine ⟨rfl, ?_⟩
        exact lookupFS_replaceEntry_self hls2
      | dir w2 =>
        rw [isDirFS, hls2] at hdirs
        simp at hdirs
  · intro cfg st op bp s c w htype hexec hbp hwd hs hlbp hdirs hfree
    have hct : copy2Target st.fs bp s = s ++ [lastName bp] := by
      unfold copy2Target
      rw [if_pos hdirs]
    unfold rollbackSingleOperation
    rw [hexec, if_neg (by simp)]
    unfold rollbackAction
    rw [htype]
    rw [if_neg (by decide), if_neg (by decide), if_neg (by decide),
      if_pos rfl, hbp]
    dsimp only
    rw [if_pos (show existsFS st.fs bp = true by simp [existsFS, hlbp]), hs]
    dsimp only
    rw [if_neg hwd]
    unfold copy2FS
    rw [hlbp, hct, hfree]
    dsimp only
    refine ⟨rfl, ?_, ?_⟩
    · rw [lookupFS_append_none hfree]
      simp [lookupFS]
    · unfold isDirFS at hdirs ⊢
      cases hlsd : lookupFS st.fs s with
      | none => rw [hlsd] at hdirs; simp at hdirs
      | some nn =>
        cases nn with
        | file c2 w2 => rw [hlsd] at hdirs; simp at hdirs
        | dir b2 => rw [lookupFS_append_some hlsd]
  · intro cfg st op bp s b htype hexec hbp hwd hs hlbp
    unfold rollbackSingleOperation
    rw [hexec, if_neg (by simp)]
    unfold rollbackAction
    rw [htype]
    rw [if_neg (by decide), if_neg (by decide), if_neg (by decide),
      if_pos rfl, hbp]
    dsimp only
    rw [if_pos (show existsFS st.fs bp = true by simp [existsFS, hlbp]), hs]
    dsimp only
    rw [if_neg hwd]
    unfold copy2FS
    rw [hlbp]
    dsimp only
    exact ⟨rfl, rfl⟩
  · intro cfg st op bp s htype hexec hbp hwd hs hbx hnos
    have hsnone : lookupFS st.fs s = none := by
      have h0 := lookupFS_none_of_no_prefix hnos []
      simpa using h0
    unfold rollbackSingleOperation
    rw [hexec, if_neg (by simp)]
    unfold rollbackAction
    rw [htype]
    rw [if_neg (by decide), if_neg (by decide), if_neg (by decide),
      if_pos rfl, hbp]
    dsimp only
    rw [if_pos hbx, hs]
    dsimp only
    rw [if_pos hwd]
    unfold copyTreeFS
    rw [if_neg (by simp [existsFS, hsnone])]
    dsimp only
    refine ⟨rfl, ?_⟩
    intro q n hq
    have h1 : lookupFS st.fs (s ++ q) = none :=
      lookupFS_none_of_no_prefix hnos q
    rw [lookupFS_append_none h1]
    have h2 : ∀ e ∈ entriesUnder st.fs bp,
        ¬ bp.isPrefixOf e.1 = true → e.1 ≠ s ++ q := by
      intro e he hnp
      simp only [entriesUnder, List.mem_filter] at he
      exact absurd (by simpa using he.2) hnp
    rw [@lookupFS_moveEntries_target bp s q (entriesUnder st.fs bp) h2]
    rw [lookupFS_entriesUnder]
    exact hq
  · intro cfg st op bp s htype hexec hbp hwd hs hbx hse
    unfold rollbackSingleOperation
    rw [hexec, if_neg (by simp)]
    unfold rollbackAction
    rw [htype]
    rw [if_neg (by decide), if_neg (by decide), if_neg (by decide),
      if_pos rfl, hbp]
    dsimp only
    rw [if_pos hbx, hs]
    dsimp only
    rw [if_pos hwd]
    unfold copyTreeFS
    rw [if_pos hse]
    dsimp only
    exact ⟨rfl, rfl⟩
  · intro cfg st ops
    unfold rollbackOperations
    rw [rollbackLoop_length]
    exact List.length_reverse ops

/-- C8 witness: the amended clauses at concrete inputs — a backup-less
executed delete record rolls back as a silent success; a record with an
existing file backup is restored to the original path; with the original
path occupied by a directory the backup lands inside it while success is
still reported; a directory backup with the flag unset yields a per-record
failure leaving the filesystem unchanged; a flagged directory backup is
restored recursively onto a free original path; a flagged restore onto a
still-occupied original path is a per-record failure; and a two-record
batch returns two results. -/
theorem rollback_delete_semantics_witness :
    (rollbackSingleOperation testManager homeState
      { operation_type := "delete",
        source_path := some (["home", "user", "x.txt"]),
        executed := true } =
      (homeState, .ok
        { success := true,
          operation :=
            { operation_type := "delete",
              source_path := some (["home", "user", "x.txt"]),
              executed := true },
          message := "Operation rolled back successfully" })) ∧
    (((rollbackSingleOperation testManager
        { fs := [ (["home"], .dir true), (["home", "user"], .dir true),
                  (["home", "user", ".ocd_backups"], .dir true),
                  (["home", "user", ".ocd_backups", "y.txt_55"],
                    .file ("old") true) ],
          history := [], time := 55 }
        { operation_type := "delete",
          source_path := some (["home", "user", "y.txt"]),
          executed := true,
          rollback_info :=
            { backup_path :=
                some (["home", "user", ".ocd_backups", "y.txt_55"]) } }).2).toOption.map
        (fun r => r.success) = some true ∧
      lookupFS (rollbackSingleOperation testManager
        { fs := [ (["home"], .dir true), (["home", "user"], .dir true),
                  (["home", "user", ".ocd_backups"], .dir true),
                  (["home", "user", ".ocd_backups", "y.txt_55"],
                    .file ("old") true) ],
          history := [], time := 55 }
        { operation_type := "delete",
          source_path := some (["home", "user", "y.txt"]),
          executed := true,
          rollback_info :=
            { backup_path :=
                some (["home", "user", ".ocd_backups", "y.txt_55"]) } }).1.fs
        (["home", "user", "y.txt"]) = some (.file ("old") true)) ∧
    (((rollbackSingleOperation testManager c8DirTargetState
        c8DirTargetRec).2).toOption.map (fun r => r.success) = some true ∧
      lookupFS (rollbackSingleOperation testManager c8DirTargetState
        c8DirTargetRec).1.fs (["home", "user", "docs", "z.txt_55"]) =
        some (.file ("zzz") true) ∧
      isDirFS (rollbackSingleOperation testManager c8DirTargetState
        c8DirTargetRec).1.fs (["home", "user", "docs"]) = true) ∧
    (((rollbackSingleOperation testManager c8DirBackupState
        c8DirBackupRec).2).toOption = none ∧
      (rollbackSingleOperation testManager c8DirBackupState
        c8DirBackupRec).1.fs = c8DirBackupState.fs) ∧
    (((rollbackSingleOperation testManager c8TreeState
        c8TreeRec).2).toOption.map (fun r => r.success) = some true ∧
      lookupFS (rollbackSingleOperation testManager c8TreeState
        c8TreeRec).1.fs (["home", "user", "docs", "a.txt"]) =
        some (.file ("xx") true)) ∧
    (((rollbackSingleOperation testManager c8TreeBlockedState
        c8TreeRec).2).toOption = none ∧
      (rollbackSingleOperation testManager c8TreeBlockedState
        c8TreeRec).1.fs = c8TreeBlockedState.fs) ∧
    (rollbackOperations testManager homeState [c8DelRec, c7MoveRec]).2.length
      = 2 :=
  ⟨rollback_delete_semantics.1 testManager homeState _ rfl rfl rfl,
   rollback_delete_semantics.2.1 testManager _ _
     (["home", "user", ".ocd_backups", "y.txt_55"])
     (["home", "user", "y.txt"]) ("old") true rfl rfl rfl (by decide) rfl
     rfl rfl,
   rollback_delete_semantics.2.2.1 testManager c8DirTargetState
     c8DirTargetRec (["home", "user", ".ocd_backups", "z.txt_55"])
     (["home", "user", "docs"]) ("zzz") true rfl rfl rfl (by decide) rfl
     rfl rfl rfl,
   rollback_delete_semantics.2.2.2.1 testManager c8DirBackupState
     c8DirBackupRec (["home", "user", ".ocd_backups", "docs_55"])
     (["home", "user", "docs"]) true rfl rfl rfl (by decide) rfl rfl,
   ⟨(rollback_delete_semantics.2.2.2.2.1 testManager c8TreeState c8TreeRec
       (["home", "user", ".ocd_backups", "docs_55"])
       (["home", "user", "docs"]) rfl rfl rfl rfl rfl rfl (by decide)).1,
    (rollback_delete_semantics.2.2.2.2.1 testManager c8TreeState c8TreeRec
       (["home", "user", ".ocd_backups", "docs_55"])
       (["home", "user", "docs"]) rfl rfl rfl rfl rfl rfl (by decide)).2
      (["a.txt"]) (.file ("xx") true) rfl⟩,
   rollback_delete_semantics.2.2.2.2.2.1 testManager c8TreeBlockedState
     c8TreeRec (["home", "user", ".ocd_backups", "docs_55"])
     (["home", "user", "docs"]) rfl rfl rfl rfl rfl rfl rfl,
   rollback_delete_semantics.2.2.2.2.2.2 testManager homeState
     [c8DelRec, c7MoveRec]⟩

theorem copy2FS_keeps_some {fs : FS} {src dst k : List String} {n : FSNode}
    (h : lookupFS fs k = some n) :
    ∃ n2, lookupFS (copy2FS fs src dst).1 k = some n2 := by
  unfold copy2FS
  split
  · next c w heq =>
    by_cases hkt : k = copy2Target fs src dst
    · subst hkt
      rw [h]
      cases n with
      | dir w2 => exact ⟨.dir w2, h⟩
      | file c2 w2 => exact ⟨.file c w, lookupFS_replaceEntry_self h⟩
    · split
      · exact ⟨n, h⟩
      · exact ⟨n, by rw [lookupFS_replaceEntry_other hkt]; exact h⟩
      · exact ⟨n, by rw [lookupFS_append_single_ne hkt]; exact h⟩
  · exact ⟨n, h⟩
  · exact ⟨n, h⟩

theorem createBackup_keeps_some {fs : FS} {p : List String} {t : Nat}
    {k : List String} {n : FSNode} (h : lookupFS fs k = some n) :
    ∃ n2, lookupFS (createBackup fs p t).1 k = some n2 := by
  unfold createBackup
  split
  · next heq =>
    have h1 : (mkdirSingleExistOk fs (backupDirOf p)).1 = _ :=
      congrArg Prod.fst heq
    exact ⟨n, by rw [← h1]; exact mkdirSingleExistOk_preserve_some h⟩
  · next fs1 u heq =>
    have hfs1 : (mkdirSingleExistOk fs (backupDirOf p)).1 = fs1 :=
      congrArg Prod.fst heq
    have hbase : lookupFS fs1 k = some n := by
      rw [← hfs1]
      exact mkdirSingleExistOk_preserve_some h
    split
    · split
      · next heq2 =>
        have h2 : (copyTreeFS fs1 p (backupPathOf p t)).1 = _ :=
          congrArg Prod.fst heq2
        exact ⟨n, by rw [← h2]; exact copyTreeFS_preserve_some hbase⟩
      · next heq2 =>
        have h2 : (copyTreeFS fs1 p (backupPathOf p t)).1 = _ :=
          congrArg Prod.fst heq2
        exact ⟨n, by rw [← h2]; exact copyTreeFS_preserve_some hbase⟩
    · split
      · next heq2 =>
        have h2 : (copy2FS fs1 p (backupPathOf p t)).1 = _ :=
          congrArg Prod.fst heq2
        obtain ⟨n2, hn2⟩ := @copy2FS_keeps_some _ p (backupPathOf p t) _ _ hbase
        exact ⟨n2, by rw [← h2]; exact hn2⟩
      · next heq2 =>
        have h2 : (copy2FS fs1 p (backupPathOf p t)).1 = _ :=
          congrArg Prod.fst heq2
        obtain ⟨n2, hn2⟩ := @copy2FS_keeps_some _ p (backupPathOf p t) _ _ hbase
        exact ⟨n2, by rw [← h2]; exact hn2⟩

theorem moveBackupStep_preserve_noBk {cfg : Manager} {fs : FS}
    {final : List String} {t : Nat} {k : List String} (hk : noBk k) :
    lookupFS (moveBackupStep cfg fs final t).1 k = lookupFS fs k := by
  unfold moveBackupStep
  split
  · cases hcb : createBackup fs final t with
    | mk fsb rb =>
      have hfst : (createBackup fs final t).1 = fsb := congrArg Prod.fst hcb
      cases rb with
      | error e =>
        dsimp only
        rw [← hfst]
        exact createBackup_preserve_noBk hk
      | ok bp =>
        dsimp only
        rw [← hfst]
        exact createBackup_preserve_noBk hk
  · rfl

theorem moveBackupStep_preserve_at {cfg : Manager} {fs : FS}
    {final : List String} {t : Nat} {n : FSNode}
    (h : lookupFS fs final = some n) :
    lookupFS (moveBackupStep cfg fs final t).1 final = some n := by
  unfold moveBackupStep
  split
  · cases hcb : createBackup fs final t with
    | mk fsb rb =>
      have hfst : (createBackup fs final t).1 = fsb := congrArg Prod.fst hcb
      cases rb with
      | error e =>
        dsimp only
        rw [← hfst]
        exact createBackup_preserve_at h
      | ok bp =>
        dsimp only
        rw [← hfst]
        exact createBackup_preserve_at h
  · exact h

theorem moveBackupStep_keeps_some {cfg : Manager} {fs : FS}
    {final : List String} {t : Nat} {k : List String} {n : FSNode}
    (h : lookupFS fs k = some n) :
    ∃ n2, lookupFS (moveBackupStep cfg fs final t).1 k = some n2 := by
  unfold moveBackupStep
  split
  · cases hcb : createBackup fs final t with
    | mk fsb rb =>
      have hfst : (createBackup fs final t).1 = fsb := congrArg Prod.fst hcb
      obtain ⟨n2, hn2⟩ := @createBackup_keeps_some _ final t _ _ h
      cases rb with
      | error e => exact ⟨n2, by dsimp only; rw [← hfst]; exact hn2⟩
      | ok bp => exact ⟨n2, by dsimp only; rw [← hfst]; exact hn2⟩
  · exact ⟨n, h⟩

theorem moveFinalDestination_ne_nil {fs : FS} {destination : List String}
    {rc : Bool} {t : Nat} (h : destination ≠ []) :
    moveFinalDestination fs destination rc t ≠ [] := by
  unfold moveFinalDestination
  split
  · obtain ⟨x, hx⟩ := resolveNamingConflict_parent fs destination t
    rw [hx]
    simp
  · exact h

theorem noBk_of_append_noBk {p q : List String} (h : noBk (p ++ q)) :
    noBk p := by
  unfold noBk at *
  intro hc
  exact h (List.mem_append_left q hc)

theorem isDir_of_parentClosed {fs : FS} {pre r : List String} {n0 : FSNode}
    (hpc : parentClosed fs) (hl : lookupFS fs (pre ++ r) = some n0)
    (hpre0 : pre ≠ []) (hr : r ≠ []) : isDirFS fs pre = true := by
  have hmem := lookupFS_mem_of_some hl
  have happ := hpc _ hmem pre.length
    (by
      simp only [List.mem_range, List.length_append]
      cases r with
      | nil => exact absurd rfl hr
      | cons a l => simp only [List.length_cons]; omega)
    (by cases pre with
      | nil => exact absurd rfl hpre0
      | cons a l => simp)
  rwa [List.take_left] at happ

theorem osRename_error_fst {fs : FS} {src dst : List String} {fs3 : FS}
    {e : PyErr} (h : osRename fs src dst = (fs3, .error e)) : fs3 = fs := by
  unfold osRename at h
  split at h
  · exact (congrArg Prod.fst h).symm
  · split at h
    · exact (congrArg Prod.fst h).symm
    · split at h
      · exact (congrArg Prod.fst h).symm
      · exact Except.noConfusion (congrArg Prod.snd h)
    · exact Except.noConfusion (congrArg Prod.snd h)

theorem shutilMove_error_fst {fs : FS} {src dst : List String} {fs3 : FS}
    {e : PyErr} (h : shutilMove fs src dst = (fs3, .error e)) : fs3 = fs := by
  unfold shutilMove at h
  split at h
  · exact (congrArg Prod.fst h).symm
  · split at h
    · split at h
      · exact Except.noConfusion (congrArg Prod.snd h)
      · split at h
        · exact (congrArg Prod.fst h).symm
        · exact osRename_error_fst h
    · split at h
      · exact Except.noConfusion (congrArg Prod.snd h)
      · exact osRename_error_fst h

/-- C1 (amended theorem): for a parent-closed filesystem state, an
existing source and backups enabled, `move_file` either fails leaving
every pre-existing entry at or below the source unchanged (outside backup
directories, whose residue the specification treats as out of band), or
succeeds with a reported final destination `d` such that either `d` is the
source itself (self-move, in which case the file simply remains — the
counterexample to the claim as stated) or the source is gone and every
pre-existing entry at or below it reappears at or below the target, where
the target is `d` or, when `d` was an existing directory, the child of `d`
named after the source.  The empty path (the model has no implicit root
directory) is excluded as a destination. -/
theorem move_no_data_loss (cfg : Manager) (st : MState)
    (source destination : List String) (rc : Bool) (srcNode : FSNode)
    (hpc : parentClosed st.fs) (hb : cfg.backup_enabled = true)
    (hdest : destination ≠ [])
    (hsrc : lookupFS st.fs source = some srcNode) :
    (∀ e, (moveFile cfg st source destination rc).2 = .error e →
      ∀ q n, noBk (source ++ q) →
        lookupFS st.fs (source ++ q) = some n →
        lookupFS (moveFile cfg st source destination rc).1.fs (source ++ q) =
          some n) ∧
    (∀ res, (moveFile cfg st source destination rc).2 = .ok res →
      ∃ d, res.destination = some d ∧
        ((d = source ∧
          lookupFS (moveFile cfg st source destination rc).1.fs source =
            some srcNode) ∨
         (lookupFS (moveFile cfg st source destination rc).1.fs source =
            none ∧
          ∃ tgt, (tgt = d ∨ tgt = d ++ [lastName source]) ∧
            ∀ q n, noBk (source ++ q) → noBk (tgt ++ q) →
              lookupFS st.fs (source ++ q) = some n →
              lookupFS (moveFile cfg st source destination rc).1.fs
                (tgt ++ q) = some n))) := by
  cases hmf : moveFile cfg st source destination rc with
  | mk st1 r =>
    dsimp only
    unfold moveFile at hmf
    split at hmf
    · -- validation failed: no mutation
      simp only [Prod.mk.injEq] at hmf
      obtain ⟨hst, hr⟩ := hmf
      subst hst
      constructor
      · intro e _ q n _ hl
        exact hl
      · intro res hres
        rw [← hr] at hres
        exact Except.noConfusion hres
    · split at hmf
      · -- source reported missing: contradicts hsrc
        next hnex =>
        rw [existsFS, hsrc] at hnex
        simp at hnex
      · generalize hfin :
          moveFinalDestination st.fs destination rc st.time = final at hmf
        have hfinne : final ≠ [] := by
          rw [← hfin]
          exact moveFinalDestination_ne_nil hdest
        have hflen : 1 ≤ final.length := by
          cases final with
          | nil => exact absurd rfl hfinne
          | cons a l => simp
        split at hmf
        · -- parent-directory creation failed
          next fs1 e1 hmk =>
          simp only [Prod.mk.injEq] at hmf
          obtain ⟨hst, hr⟩ := hmf
          subst hst
          constructor
          · intro e _ q n _ hl
            show lookupFS fs1 (source ++ q) = some n
            have hfst : (mkdirParents st.fs final.dropLast).1 = fs1 :=
              congrArg Prod.fst hmk
            rw [← hfst]
            exact mkdirChain_preserve_some _ _ hl
          · intro res hres
            rw [← hr] at hres
            exact Except.noConfusion hres
        · next fs1 u1 hmk =>
          have hfst1 : (mkdirParents st.fs final.dropLast).1 = fs1 :=
            congrArg Prod.fst hmk
          have hf1 : ∀ k n2, lookupFS st.fs k = some n2 →
              lookupFS fs1 k = some n2 := by
            intro k n2 hl
            rw [← hfst1]
            exact mkdirChain_preserve_some _ _ hl
          split at hmf
          · -- backup failed
            next fs2 e2 hbk =>
            simp only [Prod.mk.injEq] at hmf
            obtain ⟨hst, hr⟩ := hmf
            subst hst
            constructor
            · intro e _ q n hq hl
              show lookupFS fs2 (source ++ q) = some n
              have hfst2 : (moveBackupStep cfg fs1 final st.time).1 = fs2 :=
                congrArg Prod.fst hbk
              rw [← hfst2, moveBackupStep_preserve_noBk hq]
              exact hf1 _ _ hl
            · intro res hres
              rw [← hr] at hres
              exact Except.noConfusion hres
          · next fs2 bp hbk =>
            have hfst2 : (moveBackupStep cfg fs1 final st.time).1 = fs2 :=
              congrArg Prod.fst hbk
            have F1 : ∀ k n2, noBk k → lookupFS st.fs k = some n2 →
                lookupFS fs2 k = some n2 := by
              intro k n2 hk hl
              rw [← hfst2, moveBackupStep_preserve_noBk hk]
              exact hf1 _ _ hl
            have F2 : ∀ k n2, lookupFS st.fs k = some n2 →
                ∃ n3, lookupFS fs2 k = some n3 := by
              intro k n2 hl
              obtain ⟨n3, h3⟩ := @moveBackupStep_keeps_some cfg _ final st.time _ _
                (hf1 _ _ hl)
              exact ⟨n3, by rw [← hfst2]; exact h3⟩
            have F2at : ∀ n2, lookupFS st.fs final = some n2 →
                lookupFS fs2 final = some n2 := by
              intro n2 hl
              rw [← hfst2]
              exact moveBackupStep_preserve_at (hf1 _ _ hl)
            have F3 : ∀ k, noBk k → lookupFS st.fs k = none →
                k ∉ ancestorChain final.dropLast → lookupFS fs2 k = none := by
              intro k hk hl hmem
              rw [← hfst2, moveBackupStep_preserve_noBk hk, ← hfst1]
              exact mkdirChain_preserve_none _ _ hmem hl
            have hnounder : ∀ (tgt q : List String), tgt ≠ [] → q ≠ [] →
                noBk (tgt ++ q) → final.length ≤ (tgt ++ q).length →
                isDirFS fs2 tgt = false →
                lookupFS fs2 (tgt ++ q) = none := by
              intro tgt q htne hqne hnb hlenge hnd
              have hnbt : noBk tgt := noBk_of_append_noBk hnb
              by_cases hst0 : lookupFS st.fs (tgt ++ q) = none
              · by_cases hmem : (tgt ++ q) ∈ ancestorChain final.dropLast
                · have hlenmem := mem_ancestorChain_length hmem
                  rw [List.length_dropLast] at hlenmem
                  omega
                · exact F3 _ hnb hst0 hmem
              · cases hst1 : lookupFS st.fs (tgt ++ q) with
                | none => exact absurd hst1 hst0
                | some n0 =>
                  have hdir : isDirFS st.fs tgt = true :=
                    isDir_of_parentClosed hpc hst1 htne hqne
                  cases hl2 : lookupFS st.fs tgt with
                  | none => rw [isDirFS, hl2] at hdir; simp at hdir
                  | some nd =>
                    cases nd with
                    | file c w => rw [isDirFS, hl2] at hdir; simp at hdir
                    | dir w =>
                      have hv := F1 tgt _ hnbt hl2
                      rw [isDirFS, hv] at hnd
                      simp at hnd
            split at hmf
            · -- filesystem move failed: state is fs2 unchanged
              next fs3 e3 hsm =>
              have hfs32 : fs3 = fs2 := shutilMove_error_fst hsm
              simp only [Prod.mk.injEq] at hmf
              obtain ⟨hst, hr⟩ := hmf
              subst hst
              constructor
              · intro e _ q n hq hl
                show lookupFS fs3 (source ++ q) = some n
                rw [hfs32]
                exact F1 _ _ hq hl
              · intro res hres
                rw [← hr] at hres
                exact Except.noConfusion hres
            · -- the move itself succeeded
              next fs3 u3 hsm =>
              simp only [Prod.mk.injEq] at hmf
              obtain ⟨hst, hr⟩ := hmf
              subst hst
              refine ⟨?_, ?_⟩
              · intro e he
                rw [← hr] at he
                exact Except.noConfusion he
              · intro res hres
                rw [← hr] at hres
                obtain rfl := (Except.ok.inj hres)
                refine ⟨final, rfl, ?_⟩
                unfold shutilMove at hsm
                split at hsm
                · exact Except.noConfusion (congrArg Prod.snd hsm)
                · split at hsm
                  · split at hsm
                    · -- self-move inside an existing directory destination
                      next hsf =>
                      left
                      have hfs32 : fs2 = fs3 := congrArg Prod.fst hsm
                      refine ⟨hsf.symm, ?_⟩
                      show lookupFS fs3 source = some srcNode
                      rw [← hfs32, hsf]
                      exact F2at _ (by rw [← hsf]; exact hsrc)
                    · next hsf =>
                      split at hsm
                      · exact Except.noConfusion (congrArg Prod.snd hsm)
                      · next hnexR =>
                        -- moved into the directory as a child named lastName
                        have hlrnone : lookupFS fs2
                            (final ++ [lastName source]) = none := by
                          cases hlr : lookupFS fs2 (final ++ [lastName source]) with
                          | none => rfl
                          | some nr =>
                            rw [existsFS, hlr] at hnexR
                            simp at hnexR
                        unfold osRename at hsm
                        split at hsm
                        · exact Except.noConfusion (congrArg Prod.snd hsm)
                        · rw [hlrnone] at hsm
                          have hfs3 : fs3 =
                              moveEntries fs2 source (final ++ [lastName source]) :=
                            ((congrArg Prod.fst hsm)).symm
                          right
                          have hrealne : (final ++ [lastName source]) ≠ [] := by
                            simp
                          have hnpfx : ¬ (final ++ [lastName source]).isPrefixOf
                              source = true := by
                            intro hp
                            obtain ⟨r2, hr2⟩ := exists_drop_of_isPrefixOf hp
                            cases r2 with
                            | nil =>
                              rw [List.append_nil] at hr2
                              obtain ⟨n3, h3⟩ := F2 _ _ hsrc
                              rw [hr2] at h3
                              rw [existsFS, h3] at hnexR
                              simp at hnexR
                            | cons a l =>
                              rw [hr2] at hsrc
                              have hdir : isDirFS st.fs
                                  (final ++ [lastName source]) = true :=
                                isDir_of_parentClosed hpc hsrc hrealne (by simp)
                              cases hl2 : lookupFS st.fs
                                  (final ++ [lastName source]) with
                              | none => rw [isDirFS, hl2] at hdir; simp at hdir
                              | some nd =>
                                obtain ⟨n3, h3⟩ := F2 _ _ hl2
                                rw [existsFS, h3] at hnexR
                                simp at hnexR
                          constructor
                          · show lookupFS fs3 source = none
                            rw [hfs3]
                            exact lookupFS_moveEntries_none
                              (isPrefixOf_self source) hnpfx
                          · refine ⟨final ++ [lastName source], Or.inr rfl, ?_⟩
                            intro q n hq1 hq2 hl
                            have hbase : lookupFS fs2 (source ++ q) = some n :=
                              F1 _ _ hq1 hl
                            have hjunk : ∀ e ∈ fs2,
                                ¬ source.isPrefixOf e.1 = true →
                                e.1 ≠ (final ++ [lastName source]) ++ q := by
                              intro e he _ hc
                              by_cases hqn : q = []
                              · subst hqn
                                rw [List.append_nil] at hc
                                exact lookupFS_ne_of_none hlrnone e he hc
                              · have hnone := hnounder
                                  (final ++ [lastName source]) q hrealne hqn hq2
                                  (by simp only [List.length_append]; omega)
                                  (by rw [isDirFS, hlrnone])
                                exact lookupFS_ne_of_none hnone e he hc
                            show lookupFS fs3 ((final ++ [lastName source]) ++ q) =
                              some n
                            rw [hfs3, lookupFS_moveEntries_target hjunk]
                            exact hbase
                  · next hndT =>
                    split at hsm
                    · -- self-move onto the very same path
                      next hsf =>
                      left
                      have hfs32 : fs2 = fs3 := congrArg Prod.fst hsm
                      refine ⟨hsf.symm, ?_⟩
                      show lookupFS fs3 source = some srcNode
                      rw [← hfs32, hsf]
                      exact F2at _ (by rw [← hsf]; exact hsrc)
                    · next hsf =>
                      unfold osRename at hsm
                      split at hsm
                      · exact Except.noConfusion (congrArg Prod.snd hsm)
                      · next hnpfx1 =>
                        -- not (source ≠ final ∧ source prefix of final)
                        have hnspfx : ¬ source.isPrefixOf final = true := by
                          intro hp
                          exact hnpfx1 ⟨hsf, hp⟩
                        split at hsm
                        · -- destination occupied by a directory: impossible here
                          next w2 hlf =>
                          rw [isDirFS, hlf] at hndT
                          simp at hndT
                        · -- overwrite of an existing file destination
                          next c2 w2 hlf =>
                          split at hsm
                          · exact Except.noConfusion (congrArg Prod.snd hsm)
                          · next hnsrcdir =>
                            have hfs3 : fs3 =
                                moveEntries (removeKey fs2 final) source final :=
                              ((congrArg Prod.fst hsm)).symm
                            right
                            have hnpfx : ¬ final.isPrefixOf source = true := by
                              intro hp
                              obtain ⟨r2, hr2⟩ := exists_drop_of_isPrefixOf hp
                              cases r2 with
                              | nil =>
                                rw [List.append_nil] at hr2
                                exact hsf hr2
                              | cons a l =>
                                rw [hr2] at hsrc
                                have hdir : isDirFS st.fs final = true :=
                                  isDir_of_parentClosed hpc hsrc hfinne (by simp)
                                cases hl2 : lookupFS st.fs final with
                                | none => rw [isDirFS, hl2] at hdir; simp at hdir
                                | some nd =>
                                  cases nd with
                                  | file c3 w3 =>
                                    rw [isDirFS, hl2] at hdir; simp at hdir
                                  | dir w3 =>
                                    have hv := F2at _ hl2
                                    rw [hv] at hlf
                                    exact FSNode.noConfusion (Option.some.inj hlf)
                            constructor
                            · show lookupFS fs3 source = none
                              rw [hfs3]
                              exact lookupFS_moveEntries_none
                                (isPrefixOf_self source) hnpfx
                            · refine ⟨final, Or.inl rfl, ?_⟩
                              intro q n hq1 hq2 hl
                              have hbase : lookupFS fs2 (source ++ q) = some n :=
                                F1 _ _ hq1 hl
                              have hsqnef : source ++ q ≠ final := by
                                intro hc
                                by_cases hqn : q = []
                                · subst hqn
                                  rw [List.append_nil] at hc
                                  exact hsf hc
                                · exact hnspfx (by
                                    rw [← hc]
                                    exact isPrefixOf_append_self source q)
                              have hbase2 : lookupFS (removeKey fs2 final)
                                  (source ++ q) = some n := by
                                rw [lookupFS_removeKey_other hsqnef]
                                exact hbase
                              have hjunk : ∀ e ∈ removeKey fs2 final,
                                  ¬ source.isPrefixOf e.1 = true →
                                  e.1 ≠ final ++ q := by
                                intro e he _ hc
                                simp only [removeKey, List.mem_filter,
                                  decide_eq_true_eq] at he
                                by_cases hqn : q = []
                                · subst hqn
                                  rw [List.append_nil] at hc
                                  exact he.2 hc
                                · have hnone := hnounder final q hfinne hqn hq2
                                    (by simp) (by rw [isDirFS, hlf])
                                  exact lookupFS_ne_of_none hnone e he.1 hc
                              show lookupFS fs3 (final ++ q) = some n
                              rw [hfs3, lookupFS_moveEntries_target hjunk]
                              exact hbase2
                        · -- free destination: plain rename
                          next hlf =>
                          have hfs3 : fs3 = moveEntries fs2 source final :=
                            ((congrArg Prod.fst hsm)).symm
                          right
                          have hnpfx : ¬ final.isPrefixOf source = true := by
                            intro hp
                            obtain ⟨r2, hr2⟩ := exists_drop_of_isPrefixOf hp
                            cases r2 with
                            | nil =>
                              rw [List.append_nil] at hr2
                              exact hsf hr2
                            | cons a l =>
                              rw [hr2] at hsrc
                              have hdir : isDirFS st.fs final = true :=
                                isDir_of_parentClosed hpc hsrc hfinne (by simp)
                              cases hl2 : lookupFS st.fs final with
                              | none => rw [isDirFS, hl2] at hdir; simp at hdir
                              | some nd =>
                                obtain ⟨n3, h3⟩ := F2 _ _ hl2
                                rw [h3] at hlf
                                exact Option.noConfusion hlf
                          constructor
                          · show lookupFS fs3 source = none
                            rw [hfs3]
                            exact lookupFS_moveEntries_none
                              (isPrefixOf_self source) hnpfx
                          · refine ⟨final, Or.inl rfl, ?_⟩
                            intro q n hq1 hq2 hl
                            have hbase : lookupFS fs2 (source ++ q) = some n :=
                              F1 _ _ hq1 hl
                            have hjunk : ∀ e ∈ fs2,
                                ¬ source.isPrefixOf e.1 = true →
                                e.1 ≠ final ++ q := by
                              intro e he _ hc
                              by_cases hqn : q = []
                              · subst hqn
                                rw [List.append_nil] at hc
                                exact lookupFS_ne_of_none hlf e he hc
                              · have hnone := hnounder final q hfinne hqn hq2
                                  (by simp) (by rw [isDirFS, hlf])
                                exact lookupFS_ne_of_none hnone e he hc
                            show lookupFS fs3 (final ++ q) = some n
                            rw [hfs3, lookupFS_moveEntries_target hjunk]
                            exact hbase

/-- C1 witness: the amended no-data-loss dichotomy applied to a concrete
move of `d.txt` to the free destination `e.txt` in a parent-closed home
directory with backups enabled. -/
theorem move_no_data_loss_witness :
    (parentClosed homeState.fs ∧ testManager.backup_enabled = true ∧
      (["home", "user", "e.txt"] : List String) ≠ [] ∧
      lookupFS homeState.fs (["home", "user", "d.txt"]) =
        some (.file ("v0") true)) ∧
    ((∀ e, (moveFile testManager homeState (["home", "user", "d.txt"])
        (["home", "user", "e.txt"]) true).2 = .error e →
      ∀ q n, noBk ((["home", "user", "d.txt"] : List String) ++ q) →
        lookupFS homeState.fs ((["home", "user", "d.txt"] : List String) ++ q) =
          some n →
        lookupFS (moveFile testManager homeState (["home", "user", "d.txt"])
          (["home", "user", "e.txt"]) true).1.fs
          ((["home", "user", "d.txt"] : List String) ++ q) = some n) ∧
    (∀ res, (moveFile testManager homeState (["home", "user", "d.txt"])
        (["home", "user", "e.txt"]) true).2 = .ok res →
      ∃ d, res.destination = some d ∧
        ((d = (["home", "user", "d.txt"] : List String) ∧
          lookupFS (moveFile testManager homeState (["home", "user", "d.txt"])
            (["home", "user", "e.txt"]) true).1.fs
            (["home", "user", "d.txt"]) = some (.file ("v0") true)) ∨
         (lookupFS (moveFile testManager homeState (["home", "user", "d.txt"])
            (["home", "user", "e.txt"]) true).1.fs
            (["home", "user", "d.txt"]) = none ∧
          ∃ tgt, (tgt = d ∨
              tgt = d ++ [lastName (["home", "user", "d.txt"])]) ∧
            ∀ q n, noBk ((["home", "user", "d.txt"] : List String) ++ q) →
              noBk (tgt ++ q) →
              lookupFS homeState.fs
                ((["home", "user", "d.txt"] : List String) ++ q) = some n →
              lookupFS (moveFile testManager homeState
                (["home", "user", "d.txt"]) (["home", "user", "e.txt"])
                true).1.fs (tgt ++ q) = some n)))) :=
  ⟨⟨by decide, rfl, by decide, rfl⟩,
    move_no_data_loss testManager homeState (["home", "user", "d.txt"])
      (["home", "user", "e.txt"]) true (.file ("v0") true) (by decide) rfl
      (by decide) rfl⟩

end OCD
